import Mathlib

/-! # GoAdmin-themes: AdminLTE components and theme asset resolution

A shallow embedding of the component builders (`infobox`, `smallbox`,
`progress_group`, `description`, `productlist`, `chart_legend`) and of the two
theme variants (`adminlte`, `adminlte/separation`).

Go strings are embedded as `String`; `template.HTML` is a string type and is
embedded as `String` too, the distinction being kept where the template engine
looks at it (see `Value`).
-/

/-! ## Go standard library: `strings` -/

namespace strings

/-- Search of `substr` at every position of `s`, left to right. -/
def containsChars (substr : List Char) : List Char → Bool
  | [] => substr.isPrefixOf []
  | c :: cs => substr.isPrefixOf (c :: cs) || containsChars substr cs

/-- Go `strings.Contains(s, substr)`: whether `substr` occurs within `s`. -/
def Contains (s substr : String) : Bool :=
  containsChars substr.data s.data

/-- Scan for `strings.Replace` with a non-empty `old`: `skip` counts the
characters of a matched occurrence that are still to be dropped. -/
def replaceChars (old new : List Char) : Nat → List Char → List Char
  | _, [] => []
  | skip + 1, _ :: cs => replaceChars old new skip cs
  | 0, c :: cs =>
    if old.isPrefixOf (c :: cs) then new ++ replaceChars old new (old.length - 1) cs
    else c :: replaceChars old new 0 cs

/-- Go `strings.Replace(s, old, new, -1)` for a non-empty `old`: every
non-overlapping occurrence of `old`, taken left to right, is replaced by `new`. -/
def ReplaceAll (s old new : String) : String :=
  ⟨replaceChars old.data new.data 0 s.data⟩

end strings

/-! ## `template.BaseComponent` (host framework) -/

/-- The `BaseComponent` of the host framework: the name of the template and its
source text. -/
structure BaseComponent where
  Name : String
  HTMLData : String
  deriving DecidableEq, Repr

/-! ## Component structs, constructors and setters -/

namespace infobox

/-- The struct `InfoBox`; the embedded `*BaseComponent` is a pointer, `none`
being the nil pointer of a zero-valued struct. -/
structure InfoBox where
  BaseComponent : Option BaseComponent
  Icon : String
  Text : String
  Number : String
  Content : String
  Color : String
  IsHexColor : Bool
  IsSvg : Bool
  deriving DecidableEq, Repr

def InfoBox.SetIcon (i : InfoBox) (value : String) : InfoBox :=
  let i := { i with Icon := value }
  if strings.Contains value "svg" then { i with IsSvg := true } else i

def InfoBox.SetText (i : InfoBox) (value : String) : InfoBox :=
  { i with Text := value }

def InfoBox.SetNumber (i : InfoBox) (value : String) : InfoBox :=
  { i with Number := value }

def InfoBox.SetContent (i : InfoBox) (value : String) : InfoBox :=
  { i with Content := value }

def InfoBox.SetColor (i : InfoBox) (value : String) : InfoBox :=
  let i := { i with Color := value }
  if strings.Contains value "#" then { i with IsHexColor := true } else i

end infobox

namespace smallbox

/-- The struct `SmallBox`. -/
structure SmallBox where
  BaseComponent : Option BaseComponent
  Title : String
  Value : String
  Url : String
  Color : String
  IsSvg : Bool
  IsHexColor : Bool
  Icon : String
  deriving DecidableEq, Repr

def SmallBox.SetTitle (s : SmallBox) (value : String) : SmallBox :=
  { s with Title := value }

def SmallBox.SetValue (s : SmallBox) (value : String) : SmallBox :=
  { s with Value := value }

def SmallBox.SetColor (s : SmallBox) (value : String) : SmallBox :=
  let s := { s with Color := value }
  if strings.Contains value "#" then { s with IsHexColor := true } else s

def SmallBox.SetIcon (s : SmallBox) (value : String) : SmallBox :=
  let s := { s with Icon := value }
  if strings.Contains value "svg" then { s with IsSvg := true } else s

def SmallBox.SetUrl (s : SmallBox) (value : String) : SmallBox :=
  { s with Url := value }

end smallbox

namespace progress_group

/-- The struct `ProgressGroup`; Go `int` fields are integers. -/
structure ProgressGroup where
  BaseComponent : Option BaseComponent
  Title : String
  Molecular : Int
  Denominator : Int
  Color : String
  IsHexColor : Bool
  Percent : Int
  deriving DecidableEq, Repr

def ProgressGroup.SetTitle (p : ProgressGroup) (value : String) : ProgressGroup :=
  { p with Title := value }

def ProgressGroup.SetColor (p : ProgressGroup) (value : String) : ProgressGroup :=
  let p := { p with Color := value }
  if strings.Contains value "#" then { p with IsHexColor := true } else p

def ProgressGroup.SetPercent (p : ProgressGroup) (value : Int) : ProgressGroup :=
  { p with Percent := value }

def ProgressGroup.SetDenominator (p : ProgressGroup) (value : Int) : ProgressGroup :=
  { p with Denominator := value }

def ProgressGroup.SetMolecular (p : ProgressGroup) (value : Int) : ProgressGroup :=
  { p with Molecular := value }

end progress_group

namespace description

/-- The struct `Description`. -/
structure Description where
  BaseComponent : Option BaseComponent
  Border : String
  Number : String
  Title : String
  Arrow : String
  Color : String
  Percent : String
  deriving DecidableEq, Repr

def Description.SetNumber (c : Description) (value : String) : Description :=
  { c with Number := value }

def Description.SetTitle (c : Description) (value : String) : Description :=
  { c with Title := value }

def Description.SetArrow (c : Description) (value : String) : Description :=
  { c with Arrow := value }

def Description.SetPercent (c : Description) (value : String) : Description :=
  { c with Percent := value }

def Description.SetColor (c : Description) (value : String) : Description :=
  { c with Color := value }

def Description.SetBorder (c : Description) (value : String) : Description :=
  { c with Border := value }

end description

/-- A Go `map[string]string`, as the list of its entries; a key is looked up
at its first entry. -/
abbrev StringMap := List (String × String)

namespace productlist

/-- The struct `ProductList`; a nil `Data` slice is the empty list. -/
structure ProductList where
  BaseComponent : Option BaseComponent
  Data : List StringMap
  deriving DecidableEq, Repr

def ProductList.SetData (p : ProductList) (value : List StringMap) : ProductList :=
  { p with Data := value }

end productlist

namespace chart_legend

/-- The struct `ChartLegend`; a nil `Data` slice is the empty list. -/
structure ChartLegend where
  BaseComponent : Option BaseComponent
  Data : List StringMap
  deriving DecidableEq, Repr

def ChartLegend.SetData (c : ChartLegend) (value : List StringMap) : ChartLegend :=
  { c with Data := value }

end chart_legend

/-! ## The template engine of the host framework

`GetContent` hands the component to `BaseComponent.GetContentWithData`, which
parses `HTMLData` with Go `html/template` and executes the template called
`Name` on the component. The engine is embedded as an interpreter over the
syntax tree of a template: text, `{{pipeline}}`, `{{if}}`, `{{range}}`, with the
functions `index`, `eq`, `langHtml` and `lang`. Static text is written as it
is. A substituted value is escaped by `html/template` according to its Go type
and to the place in the markup where it lands: a `template.HTML` value in
element content is written as it is, an integer is printed in decimal; how any
other value is sanitised, and what the translation functions of the host
return, is the parameter `Host`. -/

namespace tmpl

/-- The place in the markup at which a pipeline is substituted: element
content, a quoted attribute value, a CSS value inside a `style` attribute, a
URL inside `href` or `src`. -/
inductive Context where
  | text
  | attr
  | css
  | url
  deriving DecidableEq, Repr

/-- Values met by the templates: `template.HTML`, `string`, `int`, `bool`,
`map[string]string` and `[]map[string]string`. -/
inductive Value where
  | html (s : String)
  | str (s : String)
  | int (n : Int)
  | bool (b : Bool)
  | map (m : StringMap)
  | maps (ms : List StringMap)
  deriving DecidableEq, Repr

/-- What the host framework and the contextual escaping of `html/template`
supply at run time. -/
structure Host where
  /-- The function `langHtml` of the host (`language.GetFromHtml`) -/
  langHtml : String → String
  /-- The function `lang` of the host (`language.Get`) -/
  lang : String → String
  /-- Escaping of a `template.HTML` value at a place other than element content -/
  escapeHTML : Context → String → String
  /-- Escaping of a plain `string` value at a place -/
  escapeString : Context → String → String

/-- Pipelines of the templates. -/
inductive Expr where
  | field (name : String)
  | var (name : String)
  | str (s : String)
  | index (e : Expr) (key : Expr)
  | eq (a : Expr) (b : Expr)
  | call (fn : String) (arg : Expr)
  deriving DecidableEq, Repr

/-- Nodes of a template body. -/
inductive Node where
  | text (s : String)
  | action (ctx : Context) (e : Expr)
  | ifElse (cond : Expr) (thn : List Node) (els : List Node)
  | ifThen (cond : Expr) (thn : List Node)
  | range (key : String) (val : String) (e : Expr) (body : List Node)
  deriving Repr

/-- A sequence of nodes. -/
abbrev Nodes := List Node

/-- Struct fields, or variables, by name. -/
abbrev Fields := List (String × Value)

/-- A template `{{define "name"}} body {{end}}`. -/
structure Template where
  name : String
  body : List Node
  deriving Repr

/-- The source text of a pipeline. An argument that is itself a function call
is parenthesised. -/
def Expr.source : Expr → String
  | .field n => "." ++ n
  | .var n => "$" ++ n
  | .str s => "\"" ++ s ++ "\""
  | .index e k => "index " ++ e.source ++ " " ++ k.source
  | .eq a b => "eq (" ++ a.source ++ ") " ++ b.source
  | .call f a => f ++ " " ++ a.source

mutual
/-- The source text of a node. -/
def Node.source : Node → String
  | .text s => s
  | .action _ e => "\x7b\x7b" ++ e.source ++ "\x7d\x7d"
  | .ifElse c t e =>
    "\x7b\x7bif " ++ c.source ++ "\x7d\x7d" ++ Node.sourceList t ++ "\x7b\x7belse\x7d\x7d"
      ++ Node.sourceList e ++ "\x7b\x7bend\x7d\x7d"
  | .ifThen c t =>
    "\x7b\x7bif " ++ c.source ++ "\x7d\x7d" ++ Node.sourceList t ++ "\x7b\x7bend\x7d\x7d"
  | .range k v e b =>
    "\x7b\x7brange $" ++ k ++ ", $" ++ v ++ " := " ++ e.source ++ "\x7d\x7d"
      ++ Node.sourceList b ++ "\x7b\x7bend\x7d\x7d"
/-- The source text of a sequence of nodes. -/
def Node.sourceList : List Node → String
  | [] => ""
  | n :: ns => n.source ++ Node.sourceList ns
end

/-- The source text of a template definition. -/
def Template.source (t : Template) : String :=
  "\x7b\x7bdefine \"" ++ t.name ++ "\"\x7d\x7d" ++ Node.sourceList t.body ++ "\x7b\x7bend\x7d\x7d"

/-- The value of `.`: the struct handed to the template (its fields by name),
or, inside `range`, the current element. -/
inductive Dot where
  | struct (fields : List (String × Value))
  | elem (m : StringMap)
  deriving Repr

/-- The data a template is executed on: `.` and the variables in scope. -/
structure Env where
  dot : Dot
  vars : List (String × Value)
  deriving Repr

/-- Go indexing `m[key]` of a `map[string]string`: the zero value `""` when the
key is absent. -/
def mapIndex (m : StringMap) (key : String) : String :=
  (m.lookup key).getD ""

/-- The function `index` on a map and a key; indexing anything else is an
execution error. -/
def indexValue : Value → Value → Option Value
  | .map m, .str key => some (.str (mapIndex m key))
  | _, _ => none

/-- The function `eq`: values of the same basic kind (string, integer,
boolean) are compared; anything else is an execution error. -/
def eqValue : Value → Value → Option Value
  | .str x, .str y => some (.bool (x == y))
  | .str x, .html y => some (.bool (x == y))
  | .html x, .str y => some (.bool (x == y))
  | .html x, .html y => some (.bool (x == y))
  | .int x, .int y => some (.bool (x == y))
  | .bool x, .bool y => some (.bool (x == y))
  | _, _ => none

/-- The functions of the host: `langHtml` takes and returns `template.HTML`,
`lang` takes and returns a `string`. -/
def callValue (H : Host) (fn : String) : Value → Option Value
  | .html s => if fn = "langHtml" then some (.html (H.langHtml s)) else none
  | .str s => if fn = "lang" then some (.str (H.lang s)) else none
  | _ => none

/-- Evaluation of a pipeline; `none` is an execution error. A field of the
struct is looked up by name; on a map element `.name` is the entry of that key. -/
def eval (H : Host) (env : Env) : Expr → Option Value
  | .field n =>
    match env.dot with
    | .struct fields => fields.lookup n
    | .elem m => some (.str (mapIndex m n))
  | .var n => env.vars.lookup n
  | .str s => some (.str s)
  | .index e k => (eval H env e).bind fun a => (eval H env k).bind fun b => indexValue a b
  | .eq a b => (eval H env a).bind fun x => (eval H env b).bind fun y => eqValue x y
  | .call fn arg => (eval H env arg).bind fun a => callValue H fn a

/-- Truth of a value in `{{if}}`: a boolean is itself, a string is true when
non-empty, an integer when non-zero, a map or slice when non-empty. -/
def truth : Value → Bool
  | .html s => s != ""
  | .str s => s != ""
  | .int n => n != 0
  | .bool b => b
  | .map m => !m.isEmpty
  | .maps ms => !ms.isEmpty

/-- The text substituted for a value at a place of the markup. A
`template.HTML` value in element content is written as it is; integers and
booleans are printed; a map or a slice is printed by no template of this
repository and is left out of the model. -/
def substitute (H : Host) (ctx : Context) : Value → Option String
  | .html s => some (if ctx = .text then s else H.escapeHTML ctx s)
  | .str s => some (H.escapeString ctx s)
  | .int n => some (toString n)
  | .bool b => some (toString b)
  | .map _ => none
  | .maps _ => none

/-- A piece of rendered markup: static text of the template, or the text
substituted for a pipeline. -/
inductive Piece where
  | lit (s : String)
  | sub (s : String)
  deriving DecidableEq, Repr

/-- The text of a piece. -/
def Piece.text : Piece → String
  | .lit s => s
  | .sub s => s

end tmpl

/-- Rendered markup, piece by piece. -/
abbrev Markup := List tmpl.Piece

/-- The markup as one string. -/
def Markup.text : Markup → String
  | [] => ""
  | p :: ps => p.text ++ Markup.text ps

/-- Concatenation of the results of the iterations of a `range`. -/
def Markup.concat : List (Option Markup) → Option Markup
  | [] => some []
  | none :: _ => none
  | some m :: rest =>
    match Markup.concat rest with
    | some ms => some (m ++ ms)
    | none => none

namespace tmpl

mutual
/-- Execution of a node; `none` is an execution error. -/
def execNode (H : Host) (env : Env) : Node → Option Markup
  | .text s => some [.lit s]
  | .action ctx e =>
    match eval H env e with
    | some v =>
      match substitute H ctx v with
      | some s => some [.sub s]
      | none => none
    | none => none
  | .ifElse c t e =>
    match eval H env c with
    | some v => if truth v then execList H env t else execList H env e
    | none => none
  | .ifThen c t =>
    match eval H env c with
    | some v => if truth v then execList H env t else some []
    | none => none
  | .range k v e b =>
    match eval H env e with
    | some (.maps ms) =>
      Markup.concat (ms.enum.map fun p =>
        execList H ⟨.elem p.2, (v, .map p.2) :: (k, .int p.1) :: env.vars⟩ b)
    | _ => none
/-- Execution of a sequence of nodes. -/
def execList (H : Host) (env : Env) : List Node → Option Markup
  | [] => some []
  | n :: ns =>
    match execNode H env n with
    | some m =>
      match execList H env ns with
      | some ms => some (m ++ ms)
      | none => none
    | none => none
end

end tmpl

/-! ## The templates of the six components

Each package keeps the source text of its template in the map `List`. The
syntax tree of each template is given next to it; every pipeline carries the
place of the markup at which it stands. That the tree is the tree of the
source text is checked by printing it (`Template.source`). -/

/-- The map `List` of package `infobox`: the source of the template `infobox`. -/
def infobox.List : StringMap :=
  [("infobox",
    "\x7b\x7bdefine \"infobox\"\x7d\x7d\n" ++
    "<div class=\"info-box\">\n" ++
    "    \x7b\x7bif .IsHexColor\x7d\x7d\n" ++
    "        <span class=\"info-box-icon\" style=\"background-color: \x7b\x7b.Color\x7d\x7d !important;\">\n" ++
    "    \x7b\x7belse\x7d\x7d\n" ++
    "        <span class=\"info-box-icon bg-\x7b\x7b.Color\x7d\x7d\">\n" ++
    "    \x7b\x7bend\x7d\x7d\n" ++
    "    \x7b\x7bif .IsSvg\x7d\x7d\n" ++
    "        \x7b\x7b.Icon\x7d\x7d\n" ++
    "    \x7b\x7belse\x7d\x7d\n" ++
    "        <i class=\"fa \x7b\x7b.Icon\x7d\x7d\"></i>\n" ++
    "    \x7b\x7bend\x7d\x7d\n" ++
    "    </span>\n" ++
    "    <div class=\"info-box-content\">\n" ++
    "        <span class=\"info-box-text\">\x7b\x7blangHtml .Text\x7d\x7d</span>\n" ++
    "        <span class=\"info-box-number\">\x7b\x7blangHtml .Number\x7d\x7d</span>\n" ++
    "        \x7b\x7blangHtml .Content\x7d\x7d\n" ++
    "    </div>\n" ++
    "</div>\n" ++
    "\x7b\x7bend\x7d\x7d")]

/-- The map `List` of package `smallbox`: the source of the template `smallbox`. -/
def smallbox.List : StringMap :=
  [("smallbox",
    "\x7b\x7bdefine \"smallbox\"\x7d\x7d\n" ++
    "    <div class=\"small-box bg-\x7b\x7b.Color\x7d\x7d\">\n" ++
    "        <div class=\"inner\">\n" ++
    "            <h3>\x7b\x7blangHtml .Value\x7d\x7d</h3>\n" ++
    "            <p>\x7b\x7blangHtml .Title\x7d\x7d</p>\n" ++
    "        </div>\n" ++
    "        <div class=\"icon\">\n" ++
    "            <i class=\"fa \x7b\x7b.Icon\x7d\x7d\"></i>\n" ++
    "        </div>\n" ++
    "        <a href=\"\x7b\x7b.Url\x7d\x7d\" class=\"small-box-footer\">\n" ++
    "            \x7b\x7blang \"more\"\x7d\x7d\n" ++
    "            <i class=\"fa fa-arrow-circle-right\"></i>\n" ++
    "        </a>\n" ++
    "    </div>\n" ++
    "\x7b\x7bend\x7d\x7d")]

/-- The map `List` of package `progress_group`: the source of the template `progress-group`. -/
def progress_group.List : StringMap :=
  [("progress-group",
    "\x7b\x7bdefine \"progress-group\"\x7d\x7d\n" ++
    "    <div class=\"progress-group\">\n" ++
    "        <span class=\"progress-text\">\x7b\x7blangHtml .Title\x7d\x7d</span>\n" ++
    "        <span class=\"progress-number\"><b>\x7b\x7b.Molecular\x7d\x7d</b>/\x7b\x7b.Denominator\x7d\x7d</span>\n" ++
    "\n" ++
    "        <div class=\"progress sm\">\n" ++
    "            \x7b\x7bif .IsHexColor\x7d\x7d\n" ++
    "                <div class=\"progress-bar\" style=\"width: \x7b\x7b.Percent\x7d\x7d%;background-color: \x7b\x7b.Color\x7d\x7d !important;\"></div>\n" ++
    "            \x7b\x7belse\x7d\x7d\n" ++
    "                <div class=\"progress-bar progress-bar-\x7b\x7b.Color\x7d\x7d\" style=\"width: \x7b\x7b.Percent\x7d\x7d%\"></div>\n" ++
    "            \x7b\x7bend\x7d\x7d\n" ++
    "        </div>\n" ++
    "    </div>\n" ++
    "\x7b\x7bend\x7d\x7d")]

/-- The map `List` of package `description`: the source of the template `description`. -/
def description.List : StringMap :=
  [("description",
    "\x7b\x7bdefine \"description\"\x7d\x7d\n" ++
    "<div class=\"description-block border-\x7b\x7b.Border\x7d\x7d\">\n" ++
    "    <span class=\"description-percentage text-\x7b\x7b.Color\x7d\x7d\"><i class=\"fa fa-caret-\x7b\x7b.Arrow\x7d\x7d\"></i>\x7b\x7blangHtml .Percent\x7d\x7d%</span>\n" ++
    "    <h5 class=\"description-header\">\x7b\x7blangHtml .Number\x7d\x7d</h5>\n" ++
    "    <span class=\"description-text\">\x7b\x7blangHtml .Title\x7d\x7d</span>\n" ++
    "</div>\n" ++
    "\x7b\x7bend\x7d\x7d")]

/-- The map `List` of package `productlist`: the source of the template `productlist`. -/
def productlist.List : StringMap :=
  [("productlist",
    "\x7b\x7bdefine \"productlist\"\x7d\x7d\n" ++
    "<ul class=\"products-list product-list-in-box\">\n" ++
    "    \x7b\x7brange $key, $data := .Data\x7d\x7d\n" ++
    "    <li class=\"item\">\n" ++
    "        <div class=\"product-img\">\n" ++
    "            <img src=\"\x7b\x7bindex $data \"img\"\x7d\x7d\" alt=\"Product Image\">\n" ++
    "        </div>\n" ++
    "        <div class=\"product-info\">\n" ++
    "            <a href=\"javascript:void(0)\" class=\"product-title\">\x7b\x7bindex $data \"title\"\x7d\x7d\n" ++
    "                \x7b\x7bif eq (index $data \"has_tabel\") \"true\"\x7d\x7d\n" ++
    "                    <span class=\"label label-\x7b\x7bindex $data \"labeltype\"\x7d\x7d pull-right\">\x7b\x7bindex $data \"label\"\x7d\x7d</span>\n" ++
    "                \x7b\x7bend\x7d\x7d\n" ++
    "            </a>\n" ++
    "            <span class=\"product-description\">\n" ++
    "                \x7b\x7bindex $data \"description\"\x7d\x7d\n" ++
    "            </span>\n" ++
    "        </div>\n" ++
    "    </li>\n" ++
    "    \x7b\x7bend\x7d\x7d\n" ++
    "</ul>\n" ++
    "\x7b\x7bend\x7d\x7d")]

/-- The map `List` of package `chart_legend`: the source of the template `chart-legend`. -/
def chart_legend.List : StringMap :=
  [("chart-legend",
    "\x7b\x7bdefine \"chart-legend\"\x7d\x7d\n" ++
    "<ul class=\"chart-legend clearfix\">\n" ++
    "    \x7b\x7brange $key, $data := .Data\x7d\x7d\n" ++
    "        <li><i class=\"fa fa-circle-o text-\x7b\x7bindex $data \"color\"\x7d\x7d\"></i>\x7b\x7bindex $data \"label\"\x7d\x7d</li>\n" ++
    "    \x7b\x7bend\x7d\x7d\n" ++
    "</ul>\n" ++
    "\x7b\x7bend\x7d\x7d")]

open tmpl in
/-- Syntax tree of the template `infobox`. -/
def infobox.template : Template :=
  ⟨"infobox",
   [.text "\n<div class=\"info-box\">\n    ",
    .ifElse (.field "IsHexColor")
      [.text "\n        <span class=\"info-box-icon\" style=\"background-color: ",
       .action .css (.field "Color"),
       .text " !important;\">\n    "]
      [.text "\n        <span class=\"info-box-icon bg-",
       .action .attr (.field "Color"),
       .text "\">\n    "],
    .text "\n    ",
    .ifElse (.field "IsSvg")
      [.text "\n        ",
       .action .text (.field "Icon"),
       .text "\n    "]
      [.text "\n        <i class=\"fa ",
       .action .attr (.field "Icon"),
       .text "\"></i>\n    "],
    .text "\n    </span>\n    <div class=\"info-box-content\">\n        <span class=\"info-box-text\">",
    .action .text (.call "langHtml" (.field "Text")),
    .text "</span>\n        <span class=\"info-box-number\">",
    .action .text (.call "langHtml" (.field "Number")),
    .text "</span>\n        ",
    .action .text (.call "langHtml" (.field "Content")),
    .text "\n    </div>\n</div>\n"]⟩

open tmpl in
/-- Syntax tree of the template `smallbox`. -/
def smallbox.template : Template :=
  ⟨"smallbox",
   [.text "\n    <div class=\"small-box bg-",
    .action .attr (.field "Color"),
    .text "\">\n        <div class=\"inner\">\n            <h3>",
    .action .text (.call "langHtml" (.field "Value")),
    .text "</h3>\n            <p>",
    .action .text (.call "langHtml" (.field "Title")),
    .text "</p>\n        </div>\n        <div class=\"icon\">\n            <i class=\"fa ",
    .action .attr (.field "Icon"),
    .text "\"></i>\n        </div>\n        <a href=\"",
    .action .url (.field "Url"),
    .text "\" class=\"small-box-footer\">\n            ",
    .action .text (.call "lang" (.str "more")),
    .text "\n            <i class=\"fa fa-arrow-circle-right\"></i>\n        </a>\n    </div>\n"]⟩

open tmpl in
/-- Syntax tree of the template `progress-group`. -/
def progress_group.template : Template :=
  ⟨"progress-group",
   [.text "\n    <div class=\"progress-group\">\n        <span class=\"progress-text\">",
    .action .text (.call "langHtml" (.field "Title")),
    .text "</span>\n        <span class=\"progress-number\"><b>",
    .action .text (.field "Molecular"),
    .text "</b>/",
    .action .text (.field "Denominator"),
    .text "</span>\n\n        <div class=\"progress sm\">\n            ",
    .ifElse (.field "IsHexColor")
      [.text "\n                <div class=\"progress-bar\" style=\"width: ",
       .action .css (.field "Percent"),
       .text "%;background-color: ",
       .action .css (.field "Color"),
       .text " !important;\"></div>\n            "]
      [.text "\n                <div class=\"progress-bar progress-bar-",
       .action .attr (.field "Color"),
       .text "\" style=\"width: ",
       .action .css (.field "Percent"),
       .text "%\"></div>\n            "],
    .text "\n        </div>\n    </div>\n"]⟩

open tmpl in
/-- Syntax tree of the template `description`. -/
def description.template : Template :=
  ⟨"description",
   [.text "\n<div class=\"description-block border-",
    .action .attr (.field "Border"),
    .text "\">\n    <span class=\"description-percentage text-",
    .action .attr (.field "Color"),
    .text "\"><i class=\"fa fa-caret-",
    .action .attr (.field "Arrow"),
    .text "\"></i>",
    .action .text (.call "langHtml" (.field "Percent")),
    .text "%</span>\n    <h5 class=\"description-header\">",
    .action .text (.call "langHtml" (.field "Number")),
    .text "</h5>\n    <span class=\"description-text\">",
    .action .text (.call "langHtml" (.field "Title")),
    .text "</span>\n</div>\n"]⟩

open tmpl in
/-- Body of the `range` of the template `productlist`: the item of one record. -/
def productlist.itemBody : Nodes :=
  [.text "\n    <li class=\"item\">\n        <div class=\"product-img\">\n            <img src=\"",
   .action .url (.index (.var "data") (.str "img")),
   .text ("\" alt=\"Product Image\">\n        </div>\n        <div class=\"product-info\">\n" ++
          "            <a href=\"javascript:void(0)\" class=\"product-title\">"),
   .action .text (.index (.var "data") (.str "title")),
   .text "\n                ",
   .ifThen (.eq (.index (.var "data") (.str "has_tabel")) (.str "true"))
     [.text "\n                    <span class=\"label label-",
      .action .attr (.index (.var "data") (.str "labeltype")),
      .text " pull-right\">",
      .action .text (.index (.var "data") (.str "label")),
      .text "</span>\n                "],
   .text "\n            </a>\n            <span class=\"product-description\">\n                ",
   .action .text (.index (.var "data") (.str "description")),
   .text "\n            </span>\n        </div>\n    </li>\n    "]

open tmpl in
/-- Syntax tree of the template `productlist`. -/
def productlist.template : Template :=
  ⟨"productlist",
   [.text "\n<ul class=\"products-list product-list-in-box\">\n    ",
    .range "key" "data" (.field "Data") productlist.itemBody,
    .text "\n</ul>\n"]⟩

open tmpl in
/-- Body of the `range` of the template `chart-legend`: the item of one record. -/
def chart_legend.itemBody : Nodes :=
  [.text "\n        <li><i class=\"fa fa-circle-o text-",
   .action .attr (.index (.var "data") (.str "color")),
   .text "\"></i>",
   .action .text (.index (.var "data") (.str "label")),
   .text "</li>\n    "]

open tmpl in
/-- Syntax tree of the template `chart-legend`. -/
def chart_legend.template : Template :=
  ⟨"chart-legend",
   [.text "\n<ul class=\"chart-legend clearfix\">\n    ",
    .range "key" "data" (.field "Data") chart_legend.itemBody,
    .text "\n</ul>\n"]⟩

namespace tmpl

/-- The templates of this repository. -/
def templates : List Template :=
  [infobox.template, smallbox.template, progress_group.template, description.template,
   productlist.template, chart_legend.template]

/-- Parsing of a template text, for the texts of this repository: the template
whose source is the text. -/
def Parse (text : String) : Option Template :=
  templates.find? fun t => t.source == text

end tmpl

/-- The method `GetContentWithData` of the host framework (package
`GoAdmin/template`, outside this repository): parse `HTMLData`, execute the
template called `Name` on the data. `none` stands for a failed rendering: a nil
receiver, a text that defines no template `Name`, or an execution error. -/
def BaseComponent.GetContentWithData (H : tmpl.Host) (b : Option BaseComponent)
    (data : tmpl.Fields) : Option Markup :=
  match b with
  | none => none
  | some b =>
    match tmpl.Parse b.HTMLData with
    | some t => if t.name = b.Name then tmpl.execList H ⟨.struct data, []⟩ t.body else none
    | none => none

/-! ## Constructors and rendering of the components -/

/-- Constructor `infobox.New`. -/
def infobox.New : infobox.InfoBox :=
  { BaseComponent := some { Name := "infobox", HTMLData := tmpl.mapIndex List "infobox" }
    Icon := "", Text := "", Number := "", Content := "", Color := ""
    IsHexColor := false, IsSvg := false }

/-- The fields of an `InfoBox` as the template sees them. -/
def infobox.InfoBox.fields (i : infobox.InfoBox) : tmpl.Fields :=
  [("Icon", .html i.Icon), ("Text", .html i.Text), ("Number", .html i.Number),
   ("Content", .html i.Content), ("Color", .html i.Color),
   ("IsHexColor", .bool i.IsHexColor), ("IsSvg", .bool i.IsSvg)]

/-- Method `InfoBox.GetContent`, piece by piece. -/
def infobox.InfoBox.GetContentPieces (H : tmpl.Host) (i : infobox.InfoBox) : Option Markup :=
  BaseComponent.GetContentWithData H i.BaseComponent i.fields

/-- Method `InfoBox.GetContent`: the rendered markup. -/
def infobox.InfoBox.GetContent (H : tmpl.Host) (i : infobox.InfoBox) : Option String :=
  (i.GetContentPieces H).map Markup.text

/-- Constructor `smallbox.New`. -/
def smallbox.New : smallbox.SmallBox :=
  { BaseComponent := some { Name := "smallbox", HTMLData := tmpl.mapIndex List "smallbox" }
    Title := "", Value := "", Url := "", Color := "", IsSvg := false, IsHexColor := false
    Icon := "" }

/-- The fields of a `SmallBox` as the template sees them. -/
def smallbox.SmallBox.fields (s : smallbox.SmallBox) : tmpl.Fields :=
  [("Title", .html s.Title), ("Value", .html s.Value), ("Url", .str s.Url),
   ("Color", .html s.Color), ("IsSvg", .bool s.IsSvg), ("IsHexColor", .bool s.IsHexColor),
   ("Icon", .html s.Icon)]

/-- Method `SmallBox.GetContent`, piece by piece. -/
def smallbox.SmallBox.GetContentPieces (H : tmpl.Host) (s : smallbox.SmallBox) : Option Markup :=
  BaseComponent.GetContentWithData H s.BaseComponent s.fields

/-- Method `SmallBox.GetContent`: the rendered markup. -/
def smallbox.SmallBox.GetContent (H : tmpl.Host) (s : smallbox.SmallBox) : Option String :=
  (s.GetContentPieces H).map Markup.text

/-- Constructor `progress_group.New`. -/
def progress_group.New : progress_group.ProgressGroup :=
  { BaseComponent :=
      some { Name := "progress-group", HTMLData := tmpl.mapIndex List "progress-group" }
    Title := "", Molecular := 0, Denominator := 0, Color := "", IsHexColor := false
    Percent := 0 }

/-- The fields of a `ProgressGroup` as the template sees them. -/
def progress_group.ProgressGroup.fields (p : progress_group.ProgressGroup) : tmpl.Fields :=
  [("Title", .html p.Title), ("Molecular", .int p.Molecular),
   ("Denominator", .int p.Denominator), ("Color", .html p.Color),
   ("IsHexColor", .bool p.IsHexColor), ("Percent", .int p.Percent)]

/-- Method `ProgressGroup.GetContent`, piece by piece. -/
def progress_group.ProgressGroup.GetContentPieces (H : tmpl.Host)
    (p : progress_group.ProgressGroup) : Option Markup :=
  BaseComponent.GetContentWithData H p.BaseComponent p.fields

/-- Method `ProgressGroup.GetContent`: the rendered markup. -/
def progress_group.ProgressGroup.GetContent (H : tmpl.Host)
    (p : progress_group.ProgressGroup) : Option String :=
  (p.GetContentPieces H).map Markup.text

/-- Constructor `description.New`. -/
def description.New : description.Description :=
  { BaseComponent := some { Name := "description", HTMLData := tmpl.mapIndex List "description" }
    Border := "", Number := "", Title := "", Arrow := "", Color := "", Percent := "" }

/-- The fields of a `Description` as the template sees them. -/
def description.Description.fields (c : description.Description) : tmpl.Fields :=
  [("Border", .str c.Border), ("Number", .html c.Number), ("Title", .html c.Title),
   ("Arrow", .str c.Arrow), ("Color", .html c.Color), ("Percent", .html c.Percent)]

/-- Method `Description.GetContent`, piece by piece. -/
def description.Description.GetContentPieces (H : tmpl.Host) (c : description.Description) :
    Option Markup :=
  BaseComponent.GetContentWithData H c.BaseComponent c.fields

/-- Method `Description.GetContent`: the rendered markup. -/
def description.Description.GetContent (H : tmpl.Host) (c : description.Description) :
    Option String :=
  (c.GetContentPieces H).map Markup.text

/-- Constructor `productlist.New`. -/
def productlist.New : productlist.ProductList :=
  { BaseComponent := some { Name := "productlist", HTMLData := tmpl.mapIndex List "productlist" }
    Data := [] }

/-- The fields of a `ProductList` as the template sees them. -/
def productlist.ProductList.fields (p : productlist.ProductList) : tmpl.Fields :=
  [("Data", .maps p.Data)]

/-- Method `ProductList.GetContent`, piece by piece. -/
def productlist.ProductList.GetContentPieces (H : tmpl.Host) (p : productlist.ProductList) :
    Option Markup :=
  BaseComponent.GetContentWithData H p.BaseComponent p.fields

/-- Method `ProductList.GetContent`: the rendered markup. -/
def productlist.ProductList.GetContent (H : tmpl.Host) (p : productlist.ProductList) :
    Option String :=
  (p.GetContentPieces H).map Markup.text

/-- Constructor `chart_legend.New`. -/
def chart_legend.New : chart_legend.ChartLegend :=
  { BaseComponent :=
      some { Name := "chart-legend", HTMLData := tmpl.mapIndex List "chart-legend" }
    Data := [] }

/-- The fields of a `ChartLegend` as the template sees them. -/
def chart_legend.ChartLegend.fields (c : chart_legend.ChartLegend) : tmpl.Fields :=
  [("Data", .maps c.Data)]

/-- Method `ChartLegend.GetContent`, piece by piece. -/
def chart_legend.ChartLegend.GetContentPieces (H : tmpl.Host) (c : chart_legend.ChartLegend) :
    Option Markup :=
  BaseComponent.GetContentWithData H c.BaseComponent c.fields

/-- Method `ChartLegend.GetContent`: the rendered markup. -/
def chart_legend.ChartLegend.GetContent (H : tmpl.Host) (c : chart_legend.ChartLegend) :
    Option String :=
  (c.GetContentPieces H).map Markup.text

/-- The values of `InfoBox` built by `New()` and any chain of setters. -/
inductive infobox.Reachable : infobox.InfoBox → Prop where
  | new : Reachable infobox.New
  | setIcon (c : infobox.InfoBox) (v : String) : Reachable c → Reachable (c.SetIcon v)
  | setText (c : infobox.InfoBox) (v : String) : Reachable c → Reachable (c.SetText v)
  | setNumber (c : infobox.InfoBox) (v : String) : Reachable c → Reachable (c.SetNumber v)
  | setContent (c : infobox.InfoBox) (v : String) : Reachable c → Reachable (c.SetContent v)
  | setColor (c : infobox.InfoBox) (v : String) : Reachable c → Reachable (c.SetColor v)

/-- The values of `ProgressGroup` built by `New()` and any chain of setters. -/
inductive progress_group.Reachable : progress_group.ProgressGroup → Prop where
  | new : Reachable progress_group.New
  | setTitle (p : progress_group.ProgressGroup) (v : String) :
    Reachable p → Reachable (p.SetTitle v)
  | setColor (p : progress_group.ProgressGroup) (v : String) :
    Reachable p → Reachable (p.SetColor v)
  | setPercent (p : progress_group.ProgressGroup) (n : Int) :
    Reachable p → Reachable (p.SetPercent n)
  | setDenominator (p : progress_group.ProgressGroup) (n : Int) :
    Reachable p → Reachable (p.SetDenominator n)
  | setMolecular (p : progress_group.ProgressGroup) (n : Int) :
    Reachable p → Reachable (p.SetMolecular n)

/-- Whether some static text of the template written to the markup contains
`s`. -/
def Markup.hasStatic (m : Markup) (s : String) : Bool :=
  m.any fun p =>
    match p with
    | .lit t => strings.Contains t s
    | .sub _ => false

open tmpl in
/-- The pieces written for one record of a `ProductList`: image, title, the
label span when the entry `has_tabel` is "true", description. -/
def productlist.item (H : Host) (r : StringMap) : Markup :=
  [.lit "\n    <li class=\"item\">\n        <div class=\"product-img\">\n            <img src=\"",
   .sub (H.escapeString .url (mapIndex r "img")),
   .lit ("\" alt=\"Product Image\">\n        </div>\n        <div class=\"product-info\">\n" ++
         "            <a href=\"javascript:void(0)\" class=\"product-title\">"),
   .sub (H.escapeString .text (mapIndex r "title")),
   .lit "\n                "] ++
  (if mapIndex r "has_tabel" = "true" then
    [.lit "\n                    <span class=\"label label-",
     .sub (H.escapeString .attr (mapIndex r "labeltype")),
     .lit " pull-right\">",
     .sub (H.escapeString .text (mapIndex r "label")),
     .lit "</span>\n                "]
   else []) ++
  [.lit "\n            </a>\n            <span class=\"product-description\">\n                ",
   .sub (H.escapeString .text (mapIndex r "description")),
   .lit "\n            </span>\n        </div>\n    </li>\n    "]

namespace tmpl

/-- A host without translations whose sanitisers leave a value as it is; it
serves to evaluate renderings on concrete inputs. -/
def Host.plain : Host :=
  { langHtml := fun s => s
    lang := fun s => s
    escapeHTML := fun _ s => s
    escapeString := fun _ s => s }

end tmpl

/-! ## Theme asset resolution -/

/-- The two results `([]byte, error)` of a file read; `err = none` is the nil
error. -/
structure ReadResult where
  data : List UInt8
  err : Option String
  deriving DecidableEq, Repr

namespace adminlte

/-- The struct `Theme` of the standard variant (the embedded host types carry
nothing `GetAsset` uses). -/
structure Theme where
  ThemeName : String
  deriving DecidableEq, Repr

/-- The package-level instance `Adminlte` of the standard variant. -/
def Adminlte : Theme := { ThemeName := "adminlte" }

/-- Function `Get` of the standard variant. -/
def Get : Theme := Adminlte

/-- Method `Theme.Name`. -/
def Theme.Name (t : Theme) : String := t.ThemeName

/-- Method `Theme.GetAsset` of the standard variant; `ReadFile` is the method of
the embedded bundle `resource.AssetFS`. -/
def Theme.GetAsset (_t : Theme) (ReadFile : String → ReadResult) (path : String) : ReadResult :=
  let path := strings.ReplaceAll path "/assets/dist" "assets/dist"
  ReadFile path

end adminlte

namespace os

/-- What the operating system holds at a file name: the content of a readable
file, or the error of the attempt to read (no such file, permission denied). -/
abbrev FileSystem := String → Except String (List UInt8)

/-- Go `os.ReadFile(name)`: the content and a nil error, or no bytes and the
error. -/
def ReadFile (fs : FileSystem) (name : String) : ReadResult :=
  match fs name with
  | .ok content => ⟨content, none⟩
  | .error e => ⟨[], some e⟩

end os

namespace separation

/-- The struct `Theme` of the separated variant. -/
structure Theme where
  ThemeName : String
  deriving DecidableEq, Repr

/-- The package-level instance `Adminlte` of the separated variant. -/
def Adminlte : Theme := { ThemeName := "adminlte_sep" }

/-- Function `Get` of the separated variant. -/
def Get : Theme := Adminlte

/-- Method `Theme.Name`. -/
def Theme.Name (t : Theme) : String := t.ThemeName

/-- Method `Theme.GetAsset` of the separated variant; `root` is the value of
`config.GetAssetRootPath()` at the call. -/
def Theme.GetAsset (_t : Theme) (root : String) (fs : os.FileSystem) (path : String) :
    ReadResult :=
  os.ReadFile fs (root ++ path)

end separation

/-! ## Theme registration -/

/-- A theme as the registry of the host holds it (the interface `Template` of
the host): the pointer to an instance of the standard or of the separated
variant. -/
inductive ThemeRef where
  | standard (t : adminlte.Theme)
  | separated (t : separation.Theme)
  deriving DecidableEq, Repr

/-- Method `Name` through the interface. -/
def ThemeRef.Name : ThemeRef → String
  | .standard t => t.Name
  | .separated t => t.Name

namespace adminTemplate

/-- A call `adminTemplate.Add(name, theme)`. -/
structure AddCall where
  name : String
  theme : ThemeRef
  deriving DecidableEq, Repr

/-- Modelled from the spec: the process-wide theme table of the host framework
(package `GoAdmin/template`, outside this repository), keyed by name, as the
list of its entries with one entry for a name. -/
abbrev Registry := List (String × ThemeRef)

/-- Modelled from the spec: the function `Add` of the host framework. It
inserts the theme under the name; overwriting an existing name is allowed (last
writer wins), and there is no duplicate-detection error. -/
def Add (reg : Registry) (name : String) (theme : ThemeRef) : Registry :=
  (name, theme) :: reg.filter fun e => e.1 != name

/-- Modelled from the spec: the function `Get` of the host framework, the
lookup of a theme by name; `none` is not-found. -/
def Get (reg : Registry) (name : String) : Option ThemeRef :=
  reg.lookup name

/-- The effect of a call of `Add` on the theme table. -/
def AddCall.run (c : AddCall) (reg : Registry) : Registry :=
  Add reg c.name c.theme

end adminTemplate

/-- Function `init` of the standard variant: the call it makes at load time. -/
def adminlte.init : adminTemplate.AddCall :=
  { name := "adminlte", theme := .standard adminlte.Adminlte }

/-- Function `init` of the separated variant: the call it makes at load time. -/
def separation.init : adminTemplate.AddCall :=
  { name := "adminlte_sep", theme := .separated separation.Adminlte }

/-! ## Go standard library: the escaping of `html/template`

What `html/template` writes for a value depends on the Go type of the value
and on the place of the pipeline. For the places of the six templates:
element content runs `htmlEscaper`; a quoted attribute value runs
`attrEscaper`; a CSS value inside a `style` attribute runs `cssValueFilter`
and then `attrEscaper`; a URL inside `href` or `src` runs the URL filter and
normalizer and then `attrEscaper`. Three functions of the library are not
embedded and are parameters (`Lib`): the tag stripper `stripTags`, the decoder
`decodeCSS` of CSS escapes, and the URL filter and normalizer. -/

namespace htmlTemplate

/-- The text `filterFailsafe` written in place of a rejected value. -/
def filterFailsafe : String := "ZgotmplZ"

/-- The tables `htmlReplacementTable` (`norm = false`) and
`htmlNormReplacementTable` (`norm = true`, the same without the ampersand), by
code point: NUL (0), quotation mark (34), ampersand (38), apostrophe (39),
plus sign (43), less-than (60), greater-than (62). -/
def replacement (norm : Bool) (c : Char) : Option String :=
  if c.toNat = 0 then some (String.singleton (Char.ofNat 65533))
  else if c.toNat = 34 then some "&#34;"
  else if c.toNat = 38 then (if norm then none else some "&amp;")
  else if c.toNat = 39 then some "&#39;"
  else if c.toNat = 43 then some "&#43;"
  else if c.toNat = 60 then some "&lt;"
  else if c.toNat = 62 then some "&gt;"
  else none

/-- The scan of `htmlReplacer`: a character of the table is replaced, any
other is kept. -/
def htmlReplacerChars (norm : Bool) : List Char → List Char
  | [] => []
  | c :: cs =>
    match replacement norm c with
    | some r => r.data ++ htmlReplacerChars norm cs
    | none => c :: htmlReplacerChars norm cs

/-- Go `htmlReplacer(s, table, true)`. -/
def htmlReplacer (norm : Bool) (s : String) : String :=
  ⟨htmlReplacerChars norm s.data⟩

/-- Go `htmlEscaper` on a plain `string`. -/
def htmlEscaper (s : String) : String :=
  htmlReplacer false s

/-- Go `attrEscaper` on a plain `string`. -/
def attrEscaper (s : String) : String :=
  htmlReplacer false s

/-- Go `attrEscaper` on a `template.HTML` value: the tags are stripped, and
the table without the ampersand is applied. -/
def attrEscaperHTML (stripTags : String → String) (s : String) : String :=
  htmlReplacer true (stripTags s)

/-- The characters at which `cssValueFilter` gives up, by code point: NUL,
quotation mark, apostrophe, parentheses, slash, semicolon, at sign, square
brackets, backslash, backtick, braces, less-than, greater-than. -/
def cssRejects (c : Char) : Bool :=
  [0, 34, 39, 40, 41, 47, 59, 64, 91, 92, 93, 96, 123, 125, 60, 62].contains c.toNat

/-- Whether a hyphen follows a hyphen. -/
def hasDoubleDash : List Char → Bool
  | c :: d :: cs => (c.toNat == 45 && d.toNat == 45) || hasDoubleDash (d :: cs)
  | _ => false

/-- The identifier `cssValueFilter` collects: the ASCII letters, digits and
underscores of the text, in lower case. -/
def cssIdent (b : List Char) : List Char :=
  (b.filter fun c => c.isAlphanum || c.toNat == 95).map Char.toLower

/-- Go `cssValueFilter` on a value that is not of type `template.CSS`: the
value is decoded; a rejected character or a doubled hyphen gives the failsafe,
and so does an identifier spelling `expression` or `mozbinding`; otherwise the
decoded value is returned. -/
def cssValueFilter (decodeCSS : String → String) (s : String) : String :=
  let b := decodeCSS s
  if b.data.any cssRejects || hasDoubleDash b.data then filterFailsafe
  else if strings.containsChars "expression".data (cssIdent b.data)
      || strings.containsChars "mozbinding".data (cssIdent b.data) then filterFailsafe
  else b

/-- Whether no character of the text is in the replacement table. -/
def isPlain (norm : Bool) (s : String) : Bool :=
  s.data.all fun c => (replacement norm c).isNone

/-- Whether the text passes `cssValueFilter` and `attrEscaper` unchanged: no
rejected character, no character of the replacement table, no doubled hyphen,
no identifier spelling `expression` or `mozbinding`. -/
def isPlainCSS (s : String) : Bool :=
  s.data.all (fun c => !cssRejects c && (replacement false c).isNone)
    && !hasDoubleDash s.data
    && !strings.containsChars "expression".data (cssIdent s.data)
    && !strings.containsChars "mozbinding".data (cssIdent s.data)

end htmlTemplate

namespace tmpl

/-- The functions of the host and of `html/template` that are not embedded:
the translation functions, `stripTags`, `decodeCSS`, and the URL filter
followed by the URL normalizer. `stripTags` returns a text without `<` as it
is, and `decodeCSS` a text without backslash. -/
structure Lib where
  langHtml : String → String
  lang : String → String
  stripTags : String → String
  decodeCSS : String → String
  urlEscaper : String → String
  stripTags_text : ∀ s, strings.Contains s "<" = false → stripTags s = s
  decodeCSS_plain : ∀ s, strings.Contains s "\x5c" = false → decodeCSS s = s

/-- The host whose escaping is that of `html/template`. -/
def goHost (L : Lib) : Host where
  langHtml := L.langHtml
  lang := L.lang
  escapeHTML := fun ctx s =>
    match ctx with
    | .text => s
    | .attr => htmlTemplate.attrEscaperHTML L.stripTags s
    | .css => htmlTemplate.attrEscaper (htmlTemplate.cssValueFilter L.decodeCSS s)
    | .url => htmlTemplate.attrEscaper (L.urlEscaper s)
  escapeString := fun ctx s =>
    match ctx with
    | .text => htmlTemplate.htmlEscaper s
    | .attr => htmlTemplate.attrEscaper s
    | .css => htmlTemplate.attrEscaper (htmlTemplate.cssValueFilter L.decodeCSS s)
    | .url => htmlTemplate.attrEscaper (L.urlEscaper s)

/-- An instance of `Lib` to evaluate renderings on concrete inputs: no
translations, and the three library functions taken as the identity, which is
what they are on a text without `<`, without backslash, and on a plain URL. -/
def Lib.plain : Lib where
  langHtml := fun s => s
  lang := fun s => s
  stripTags := fun s => s
  decodeCSS := fun s => s
  urlEscaper := fun s => s
  stripTags_text := fun _ _ => rfl
  decodeCSS_plain := fun _ _ => rfl

end tmpl

/-! ## Further notions for the statements -/

/-- Go `strings.HasPrefix(s, pre)`. -/
def strings.HasPrefix (s pre : String) : Bool :=
  pre.data.isPrefixOf s.data

/-- Go `strings.HasSuffix(s, suf)`. -/
def strings.HasSuffix (s suf : String) : Bool :=
  suf.data.reverse.isPrefixOf s.data.reverse

/-- The number of pieces of static text written to the markup that contain
`s`. -/
def Markup.countStatic (m : Markup) (s : String) : Nat :=
  m.countP fun p =>
    match p with
    | .lit t => strings.Contains t s
    | .sub _ => false

open tmpl in
/-- The pieces written for one record of a `ChartLegend`: the list item with
the colored icon and the label. -/
def chart_legend.item (H : Host) (r : StringMap) : Markup :=
  [.lit "\n        <li><i class=\"fa fa-circle-o text-",
   .sub (H.escapeString .attr (mapIndex r "color")),
   .lit "\"></i>",
   .sub (H.escapeString .text (mapIndex r "label")),
   .lit "</li>\n    "]

/-- The method `GetContentWithData` as a step on what the component shares with
the call: the markup returned, and the `BaseComponent` behind the pointer after
the call. -/
abbrev HostMethod := Option BaseComponent → tmpl.Fields → Option String × Option BaseComponent

/-- Modelled from the spec: the method `GetContentWithData` of the host
framework (package `GoAdmin/template`, outside this repository) as a step.
Rendering is a pure, side-effect-free transformation: the markup is that of
the engine, and the `BaseComponent` is left as it is. -/
def BaseComponent.GetContentWithDataCall (H : tmpl.Host) : HostMethod :=
  fun b data => ((BaseComponent.GetContentWithData H b data).map Markup.text, b)

/-- A call of the method `GetContent` on a variable holding an `InfoBox`: the
markup returned, and the value of the variable after the call. The method has a
value receiver and hands its copy and the embedded pointer to the host method
`G`; the variable changes where `G` changes the `BaseComponent`. -/
def infobox.InfoBox.GetContentCall (G : HostMethod) (i : infobox.InfoBox) :
    Option String × infobox.InfoBox :=
  ((G i.BaseComponent i.fields).1, { i with BaseComponent := (G i.BaseComponent i.fields).2 })

/-- A call of `GetContent` on a variable holding a `SmallBox`. -/
def smallbox.SmallBox.GetContentCall (G : HostMethod) (s : smallbox.SmallBox) :
    Option String × smallbox.SmallBox :=
  ((G s.BaseComponent s.fields).1, { s with BaseComponent := (G s.BaseComponent s.fields).2 })

/-- A call of `GetContent` on a variable holding a `ProgressGroup`. -/
def progress_group.ProgressGroup.GetContentCall (G : HostMethod)
    (p : progress_group.ProgressGroup) : Option String × progress_group.ProgressGroup :=
  ((G p.BaseComponent p.fields).1, { p with BaseComponent := (G p.BaseComponent p.fields).2 })

/-- A call of `GetContent` on a variable holding a `Description`. -/
def description.Description.GetContentCall (G : HostMethod) (c : description.Description) :
    Option String × description.Description :=
  ((G c.BaseComponent c.fields).1, { c with BaseComponent := (G c.BaseComponent c.fields).2 })

/-- A call of `GetContent` on a variable holding a `ProductList`. -/
def productlist.ProductList.GetContentCall (G : HostMethod) (p : productlist.ProductList) :
    Option String × productlist.ProductList :=
  ((G p.BaseComponent p.fields).1, { p with BaseComponent := (G p.BaseComponent p.fields).2 })

/-- A call of `GetContent` on a variable holding a `ChartLegend`. -/
def chart_legend.ChartLegend.GetContentCall (G : HostMethod) (c : chart_legend.ChartLegend) :
    Option String × chart_legend.ChartLegend :=
  ((G c.BaseComponent c.fields).1, { c with BaseComponent := (G c.BaseComponent c.fields).2 })

/-! ## Lemmas on strings and markup -/

theorem strings_containsChars_iff (sub s : List Char) :
    strings.containsChars sub s = true ↔ sub <:+: s := by
  induction s with
  | nil =>
    simp only [strings.containsChars, List.isPrefixOf_iff_prefix, List.prefix_nil,
      List.infix_nil]
  | cons c cs ih =>
    simp only [strings.containsChars, Bool.or_eq_true, List.isPrefixOf_iff_prefix, ih,
      List.infix_cons_iff]

theorem strings_Contains_iff (s sub : String) :
    strings.Contains s sub = true ↔ sub.data <:+: s.data := by
  simp only [strings.Contains, strings_containsChars_iff]

theorem strings_Contains_eq_false_iff (s sub : String) :
    strings.Contains s sub = false ↔ ¬ sub.data <:+: s.data := by
  rw [← strings_Contains_iff, Bool.not_eq_true]

theorem Markup_text_append (a b : Markup) :
    Markup.text (a ++ b) = Markup.text a ++ Markup.text b := by
  induction a with
  | nil => simp [Markup.text]
  | cons p ps ih => simp [Markup.text, ih, String.append_assoc]

/-- Consecutive pieces of a markup are a substring of its text. -/
theorem Markup_text_contains_of_pieces (ps m : Markup) (h : ps <:+: m) :
    strings.Contains (Markup.text m) (Markup.text ps) = true := by
  obtain ⟨a, b, rfl⟩ := h
  rw [strings_Contains_iff]
  refine ⟨(Markup.text a).data, (Markup.text b).data, ?_⟩
  simp [Markup_text_append, String.data_append]

/-! ## Setters: derived flags and frame -/

theorem infobox_SetColor_IsHexColor (c : infobox.InfoBox) (v : String) :
    (c.SetColor v).IsHexColor = (c.IsHexColor || strings.Contains v "#") := by
  unfold infobox.InfoBox.SetColor
  cases h : strings.Contains v "#" <;> simp

theorem smallbox_SetColor_IsHexColor (c : smallbox.SmallBox) (v : String) :
    (c.SetColor v).IsHexColor = (c.IsHexColor || strings.Contains v "#") := by
  unfold smallbox.SmallBox.SetColor
  cases h : strings.Contains v "#" <;> simp

theorem smallbox_SetIcon_IsSvg (c : smallbox.SmallBox) (v : String) :
    (c.SetIcon v).IsSvg = (c.IsSvg || strings.Contains v "svg") := by
  unfold smallbox.SmallBox.SetIcon
  cases h : strings.Contains v "svg" <;> simp

theorem infobox_SetIcon_IsSvg (c : infobox.InfoBox) (v : String) :
    (c.SetIcon v).IsSvg = (c.IsSvg || strings.Contains v "svg") := by
  unfold infobox.InfoBox.SetIcon
  cases h : strings.Contains v "svg" <;> simp

theorem progress_group_SetColor_IsHexColor (c : progress_group.ProgressGroup) (v : String) :
    (c.SetColor v).IsHexColor = (c.IsHexColor || strings.Contains v "#") := by
  unfold progress_group.ProgressGroup.SetColor
  cases h : strings.Contains v "#" <;> simp

/-- C1: the derived flags are sticky. On a value whose flag is already true,
`SetColor` with a color without "#" leaves `IsHexColor` true (InfoBox, SmallBox,
ProgressGroup), and `SetIcon` with an icon without "svg" leaves `IsSvg` true
(InfoBox, SmallBox): the flag no longer reflects the value set last. In
general the flag after the call is the flag before the call or the test of the
new value. -/
theorem C1_flag_not_reset :
    strings.Contains "red" "#" = false ∧
    ((infobox.New.SetColor "#3c8dbc").SetColor "red").IsHexColor = true ∧
    ((smallbox.New.SetColor "#3c8dbc").SetColor "red").IsHexColor = true ∧
    ((progress_group.New.SetColor "#3c8dbc").SetColor "red").IsHexColor = true ∧
    strings.Contains "fa-user" "svg" = false ∧
    ((infobox.New.SetIcon "<svg></svg>").SetIcon "fa-user").IsSvg = true ∧
    ((smallbox.New.SetIcon "<svg></svg>").SetIcon "fa-user").IsSvg = true ∧
    (∀ (c : infobox.InfoBox) (v : String),
      (c.SetColor v).IsHexColor = (c.IsHexColor || strings.Contains v "#") ∧
      (c.SetIcon v).IsSvg = (c.IsSvg || strings.Contains v "svg")) ∧
    (∀ (c : smallbox.SmallBox) (v : String),
      (c.SetColor v).IsHexColor = (c.IsHexColor || strings.Contains v "#") ∧
      (c.SetIcon v).IsSvg = (c.IsSvg || strings.Contains v "svg")) ∧
    (∀ (c : progress_group.ProgressGroup) (v : String),
      (c.SetColor v).IsHexColor = (c.IsHexColor || strings.Contains v "#")) := by
  refine ⟨by decide, by decide, by decide, by decide, by decide, by decide, by decide,
    fun c v => ⟨infobox_SetColor_IsHexColor c v, infobox_SetIcon_IsSvg c v⟩,
    fun c v => ⟨smallbox_SetColor_IsHexColor c v, smallbox_SetIcon_IsSvg c v⟩,
    fun c v => progress_group_SetColor_IsHexColor c v⟩

/-! ## The syntax trees are the trees of the sources -/

set_option maxRecDepth 100000 in
theorem infobox_template_source :
    infobox.template.source = tmpl.mapIndex infobox.List "infobox" := by
  rfl

set_option maxRecDepth 100000 in
theorem smallbox_template_source :
    smallbox.template.source = tmpl.mapIndex smallbox.List "smallbox" := by
  rfl

set_option maxRecDepth 100000 in
theorem progress_group_template_source :
    progress_group.template.source = tmpl.mapIndex progress_group.List "progress-group" := by
  rfl

set_option maxRecDepth 100000 in
theorem description_template_source :
    description.template.source = tmpl.mapIndex description.List "description" := by
  rfl

set_option maxRecDepth 100000 in
theorem productlist_template_source :
    productlist.template.source = tmpl.mapIndex productlist.List "productlist" := by
  rfl

set_option maxRecDepth 100000 in
theorem chart_legend_template_source :
    chart_legend.template.source = tmpl.mapIndex chart_legend.List "chart-legend" := by
  rfl

/-! ## Rendering: parsing of the sources and closed forms -/

set_option maxRecDepth 100000 in
theorem tmpl_parse_infobox :
    tmpl.Parse (tmpl.mapIndex infobox.List "infobox") = some infobox.template := by
  rfl

set_option maxRecDepth 100000 in
theorem tmpl_parse_smallbox :
    tmpl.Parse (tmpl.mapIndex smallbox.List "smallbox") = some smallbox.template := by
  rfl

set_option maxRecDepth 100000 in
theorem tmpl_parse_progress_group :
    tmpl.Parse (tmpl.mapIndex progress_group.List "progress-group")
      = some progress_group.template := by
  rfl

set_option maxRecDepth 100000 in
theorem tmpl_parse_productlist :
    tmpl.Parse (tmpl.mapIndex productlist.List "productlist") = some productlist.template := by
  rfl

set_option maxRecDepth 100000 in
theorem tmpl_parse_description :
    tmpl.Parse (tmpl.mapIndex description.List "description") = some description.template := by
  rfl

set_option maxRecDepth 100000 in
theorem tmpl_parse_chart_legend :
    tmpl.Parse (tmpl.mapIndex chart_legend.List "chart-legend")
      = some chart_legend.template := by
  rfl

/-- The pieces an `InfoBox` carrying the template of `New()` renders to. -/
theorem infobox_render_eq (H : tmpl.Host) (c : infobox.InfoBox)
    (hb : c.BaseComponent = infobox.New.BaseComponent) :
    c.GetContentPieces H = some
      ([.lit "\n<div class=\"info-box\">\n    "] ++
       (if c.IsHexColor then
          [.lit "\n        <span class=\"info-box-icon\" style=\"background-color: ",
           .sub (H.escapeHTML .css c.Color), .lit " !important;\">\n    "]
        else
          [.lit "\n        <span class=\"info-box-icon bg-",
           .sub (H.escapeHTML .attr c.Color), .lit "\">\n    "]) ++
       [.lit "\n    "] ++
       (if c.IsSvg then [.lit "\n        ", .sub c.Icon, .lit "\n    "]
        else
          [.lit "\n        <i class=\"fa ", .sub (H.escapeHTML .attr c.Icon),
           .lit "\"></i>\n    "]) ++
       [.lit ("\n    </span>\n    <div class=\"info-box-content\">\n" ++
              "        <span class=\"info-box-text\">"),
        .sub (H.langHtml c.Text),
        .lit "</span>\n        <span class=\"info-box-number\">",
        .sub (H.langHtml c.Number),
        .lit "</span>\n        ",
        .sub (H.langHtml c.Content),
        .lit "\n    </div>\n</div>\n"]) := by
  simp only [infobox.InfoBox.GetContentPieces, hb, infobox.New,
    BaseComponent.GetContentWithData, tmpl_parse_infobox]
  cases h1 : c.IsHexColor <;> cases h2 : c.IsSvg <;>
    simp [infobox.template, tmpl.execList, tmpl.execNode, tmpl.eval, tmpl.substitute,
      tmpl.truth, infobox.InfoBox.fields, tmpl.callValue, List.lookup, h1, h2]

/-- The pieces a `SmallBox` carrying the template of `New()` renders to. -/
theorem smallbox_render_eq (H : tmpl.Host) (c : smallbox.SmallBox)
    (hb : c.BaseComponent = smallbox.New.BaseComponent) :
    c.GetContentPieces H = some
      [.lit "\n    <div class=\"small-box bg-",
       .sub (H.escapeHTML .attr c.Color),
       .lit "\">\n        <div class=\"inner\">\n            <h3>",
       .sub (H.langHtml c.Value),
       .lit "</h3>\n            <p>",
       .sub (H.langHtml c.Title),
       .lit "</p>\n        </div>\n        <div class=\"icon\">\n            <i class=\"fa ",
       .sub (H.escapeHTML .attr c.Icon),
       .lit "\"></i>\n        </div>\n        <a href=\"",
       .sub (H.escapeString .url c.Url),
       .lit "\" class=\"small-box-footer\">\n            ",
       .sub (H.escapeString .text (H.lang "more")),
       .lit ("\n            <i class=\"fa fa-arrow-circle-right\"></i>\n" ++
             "        </a>\n    </div>\n")] := by
  simp only [smallbox.SmallBox.GetContentPieces, hb, smallbox.New,
    BaseComponent.GetContentWithData, tmpl_parse_smallbox]
  simp [smallbox.template, tmpl.execList, tmpl.execNode, tmpl.eval, tmpl.substitute,
    smallbox.SmallBox.fields, tmpl.callValue, List.lookup]

/-- The pieces a `ProgressGroup` carrying the template of `New()` renders to. -/
theorem progress_group_render_eq (H : tmpl.Host) (c : progress_group.ProgressGroup)
    (hb : c.BaseComponent = progress_group.New.BaseComponent) :
    c.GetContentPieces H = some
      ([.lit "\n    <div class=\"progress-group\">\n        <span class=\"progress-text\">",
        .sub (H.langHtml c.Title),
        .lit "</span>\n        <span class=\"progress-number\"><b>",
        .sub (toString c.Molecular),
        .lit "</b>/",
        .sub (toString c.Denominator),
        .lit "</span>\n\n        <div class=\"progress sm\">\n            "] ++
       (if c.IsHexColor then
          [.lit "\n                <div class=\"progress-bar\" style=\"width: ",
           .sub (toString c.Percent),
           .lit "%;background-color: ",
           .sub (H.escapeHTML .css c.Color),
           .lit " !important;\"></div>\n            "]
        else
          [.lit "\n                <div class=\"progress-bar progress-bar-",
           .sub (H.escapeHTML .attr c.Color),
           .lit "\" style=\"width: ",
           .sub (toString c.Percent),
           .lit "%\"></div>\n            "]) ++
       [.lit "\n        </div>\n    </div>\n"]) := by
  simp only [progress_group.ProgressGroup.GetContentPieces, hb, progress_group.New,
    BaseComponent.GetContentWithData, tmpl_parse_progress_group]
  cases h1 : c.IsHexColor <;>
    simp [progress_group.template, tmpl.execList, tmpl.execNode, tmpl.eval, tmpl.substitute,
      tmpl.truth, progress_group.ProgressGroup.fields, tmpl.callValue, List.lookup, h1]

theorem infobox_Reachable_base {c : infobox.InfoBox} (h : infobox.Reachable c) :
    c.BaseComponent = infobox.New.BaseComponent := by
  induction h with
  | new => rfl
  | setIcon c v _ ih =>
    rw [← ih]; unfold infobox.InfoBox.SetIcon; cases strings.Contains v "svg" <;> rfl
  | setText c v _ ih => exact ih
  | setNumber c v _ ih => exact ih
  | setContent c v _ ih => exact ih
  | setColor c v _ ih =>
    rw [← ih]; unfold infobox.InfoBox.SetColor; cases strings.Contains v "#" <;> rfl

theorem progress_group_Reachable_base {c : progress_group.ProgressGroup}
    (h : progress_group.Reachable c) :
    c.BaseComponent = progress_group.New.BaseComponent := by
  induction h with
  | new => rfl
  | setTitle c v _ ih => exact ih
  | setColor c v _ ih =>
    rw [← ih]; unfold progress_group.ProgressGroup.SetColor
    cases strings.Contains v "#" <;> rfl
  | setPercent c v _ ih => exact ih
  | setDenominator c v _ ih => exact ih
  | setMolecular c v _ ih => exact ih

theorem strings_Contains_of_data_eq (s needle : String) (pre post : List Char)
    (h : s.data = pre ++ (needle.data ++ post)) : strings.Contains s needle = true := by
  rw [strings_Contains_iff]
  exact ⟨pre, post, by rw [h, List.append_assoc]⟩

theorem strings_Contains_trans {s t u : String} (h1 : strings.Contains s t = true)
    (h2 : strings.Contains t u = true) : strings.Contains s u = true := by
  rw [strings_Contains_iff] at *
  exact h2.trans h1

theorem and_of_left {a b : Prop} (ha : a) (hb : a → b) : a ∧ b :=
  ⟨ha, hb ha⟩

theorem infobox_SetColor_Color (c : infobox.InfoBox) (v : String) :
    (c.SetColor v).Color = v := by
  unfold infobox.InfoBox.SetColor
  cases strings.Contains v "#" <;> rfl

theorem infobox_SetColor_base (c : infobox.InfoBox) (v : String) :
    (c.SetColor v).BaseComponent = c.BaseComponent := by
  unfold infobox.InfoBox.SetColor
  cases strings.Contains v "#" <;> rfl

theorem infobox_SetIcon_Icon (c : infobox.InfoBox) (v : String) :
    (c.SetIcon v).Icon = v := by
  unfold infobox.InfoBox.SetIcon
  cases strings.Contains v "svg" <;> rfl

theorem infobox_SetIcon_base (c : infobox.InfoBox) (v : String) :
    (c.SetIcon v).BaseComponent = c.BaseComponent := by
  unfold infobox.InfoBox.SetIcon
  cases strings.Contains v "svg" <;> rfl

theorem progress_group_SetColor_Color (c : progress_group.ProgressGroup) (v : String) :
    (c.SetColor v).Color = v := by
  unfold progress_group.ProgressGroup.SetColor
  cases strings.Contains v "#" <;> rfl

theorem smallbox_SetColor_Color (c : smallbox.SmallBox) (v : String) :
    (c.SetColor v).Color = v := by
  unfold smallbox.SmallBox.SetColor
  cases strings.Contains v "#" <;> rfl

theorem smallbox_SetColor_base (c : smallbox.SmallBox) (v : String) :
    (c.SetColor v).BaseComponent = c.BaseComponent := by
  unfold smallbox.SmallBox.SetColor
  cases strings.Contains v "#" <;> rfl

theorem smallbox_SetIcon_Icon (c : smallbox.SmallBox) (v : String) :
    (c.SetIcon v).Icon = v := by
  unfold smallbox.SmallBox.SetIcon
  cases strings.Contains v "svg" <;> rfl

theorem smallbox_SetIcon_base (c : smallbox.SmallBox) (v : String) :
    (c.SetIcon v).BaseComponent = c.BaseComponent := by
  unfold smallbox.SmallBox.SetIcon
  cases strings.Contains v "svg" <;> rfl

/-- An `InfoBox` whose `IsHexColor` is true renders its color in the inline
style. -/
theorem infobox_render_hex (H : tmpl.Host) (c : infobox.InfoBox)
    (hb : c.BaseComponent = infobox.New.BaseComponent) (hf : c.IsHexColor = true) :
    ∃ m : Markup, c.GetContentPieces H = some m ∧ c.GetContent H = some (Markup.text m) ∧
      [.lit "\n        <span class=\"info-box-icon\" style=\"background-color: ",
       .sub (H.escapeHTML .css c.Color), .lit " !important;\">\n    "] <:+: m ∧
      strings.Contains (Markup.text m)
        ("style=\"background-color: " ++ H.escapeHTML .css c.Color ++ " !important;\"") = true ∧
      m.hasStatic "bg-" = false := by
  have hpieces := infobox_render_eq H c hb
  rw [hf] at hpieces
  simp only [if_true] at hpieces
  refine ⟨_, hpieces, ?_, and_of_left ?_ (fun hinf => ⟨?_, ?_⟩)⟩
  · simp only [infobox.InfoBox.GetContent, hpieces, Option.map_some']
  · simp only [List.append_assoc, List.cons_append, List.nil_append]
    exact ⟨[_], _, rfl⟩
  · refine strings_Contains_trans (Markup_text_contains_of_pieces _ _ hinf) ?_
    refine strings_Contains_of_data_eq _ _
      "\n        <span class=\"info-box-icon\" ".data ">\n    ".data ?_
    simp only [Markup.text, tmpl.Piece.text, String.data_append, List.append_assoc]
    rfl
  · cases c.IsSvg <;> simp [Markup.hasStatic] <;> decide

/-- An `InfoBox` whose `IsHexColor` is false renders its color as the suffix of
the class `bg-`. -/
theorem infobox_render_class (H : tmpl.Host) (c : infobox.InfoBox)
    (hb : c.BaseComponent = infobox.New.BaseComponent) (hf : c.IsHexColor = false) :
    ∃ m : Markup, c.GetContentPieces H = some m ∧ c.GetContent H = some (Markup.text m) ∧
      [.lit "\n        <span class=\"info-box-icon bg-",
       .sub (H.escapeHTML .attr c.Color), .lit "\">\n    "] <:+: m ∧
      strings.Contains (Markup.text m)
        ("class=\"info-box-icon bg-" ++ H.escapeHTML .attr c.Color ++ "\"") = true ∧
      m.hasStatic "background-color" = false := by
  have hpieces := infobox_render_eq H c hb
  rw [hf] at hpieces
  simp only [Bool.false_eq_true, if_false] at hpieces
  refine ⟨_, hpieces, ?_, and_of_left ?_ (fun hinf => ⟨?_, ?_⟩)⟩
  · simp only [infobox.InfoBox.GetContent, hpieces, Option.map_some']
  · simp only [List.append_assoc, List.cons_append, List.nil_append]
    exact ⟨[_], _, rfl⟩
  · refine strings_Contains_trans (Markup_text_contains_of_pieces _ _ hinf) ?_
    refine strings_Contains_of_data_eq _ _ "\n        <span ".data ">\n    ".data ?_
    simp only [Markup.text, tmpl.Piece.text, String.data_append, List.append_assoc]
    rfl
  · cases c.IsSvg <;> simp [Markup.hasStatic] <;> decide

/-- An `InfoBox` whose `IsSvg` is true renders its icon as it is. -/
theorem infobox_render_svg (H : tmpl.Host) (c : infobox.InfoBox)
    (hb : c.BaseComponent = infobox.New.BaseComponent) (hf : c.IsSvg = true) :
    ∃ m : Markup, c.GetContentPieces H = some m ∧ c.GetContent H = some (Markup.text m) ∧
      [.lit "\n        ", .sub c.Icon, .lit "\n    "] <:+: m ∧
      strings.Contains (Markup.text m) c.Icon = true ∧
      m.hasStatic "<i class=\"fa " = false := by
  have hpieces := infobox_render_eq H c hb
  rw [hf] at hpieces
  simp only [if_true] at hpieces
  refine ⟨_, hpieces, ?_, and_of_left ?_ (fun hinf => ⟨?_, ?_⟩)⟩
  · simp only [infobox.InfoBox.GetContent, hpieces, Option.map_some']
  · cases c.IsHexColor <;>
      simp only [List.append_assoc, List.cons_append, List.nil_append, if_true, if_false,
          Bool.false_eq_true] <;>
        exact ⟨[_, _, _, _, _], _, rfl⟩
  · refine strings_Contains_trans (Markup_text_contains_of_pieces _ _ hinf) ?_
    refine strings_Contains_of_data_eq _ _ "\n        ".data "\n    ".data ?_
    simp only [Markup.text, tmpl.Piece.text, String.data_append, List.append_assoc]
    rfl
  · cases c.IsHexColor <;> simp [Markup.hasStatic] <;> decide

/-- An `InfoBox` whose `IsSvg` is false wraps its icon in the font-icon
element. -/
theorem infobox_render_fa (H : tmpl.Host) (c : infobox.InfoBox)
    (hb : c.BaseComponent = infobox.New.BaseComponent) (hf : c.IsSvg = false) :
    ∃ m : Markup, c.GetContentPieces H = some m ∧ c.GetContent H = some (Markup.text m) ∧
      [.lit "\n        <i class=\"fa ", .sub (H.escapeHTML .attr c.Icon),
       .lit "\"></i>\n    "] <:+: m ∧
      strings.Contains (Markup.text m)
        ("<i class=\"fa " ++ H.escapeHTML .attr c.Icon ++ "\"></i>") = true := by
  have hpieces := infobox_render_eq H c hb
  rw [hf] at hpieces
  simp only [Bool.false_eq_true, if_false] at hpieces
  refine ⟨_, hpieces, ?_, and_of_left ?_ (fun hinf => ?_)⟩
  · simp only [infobox.InfoBox.GetContent, hpieces, Option.map_some']
  · cases c.IsHexColor <;>
      simp only [List.append_assoc, List.cons_append, List.nil_append, if_true, if_false,
          Bool.false_eq_true] <;>
        exact ⟨[_, _, _, _, _], _, rfl⟩
  · refine strings_Contains_trans (Markup_text_contains_of_pieces _ _ hinf) ?_
    refine strings_Contains_of_data_eq _ _ "\n        ".data "\n    ".data ?_
    simp only [Markup.text, tmpl.Piece.text, String.data_append, List.append_assoc]
    rfl

/-- A `ProgressGroup` whose `IsHexColor` is true renders its color in the inline
style. -/
theorem progress_group_render_hex (H : tmpl.Host) (c : progress_group.ProgressGroup)
    (hb : c.BaseComponent = progress_group.New.BaseComponent) (hf : c.IsHexColor = true) :
    ∃ m : Markup, c.GetContentPieces H = some m ∧ c.GetContent H = some (Markup.text m) ∧
      [.lit "%;background-color: ", .sub (H.escapeHTML .css c.Color),
       .lit " !important;\"></div>\n            "] <:+: m ∧
      strings.Contains (Markup.text m)
        ("background-color: " ++ H.escapeHTML .css c.Color ++ " !important;\"") = true ∧
      m.hasStatic "progress-bar-" = false := by
  have hpieces := progress_group_render_eq H c hb
  rw [hf] at hpieces
  simp only [if_true] at hpieces
  refine ⟨_, hpieces, ?_, and_of_left ?_ (fun hinf => ⟨?_, ?_⟩)⟩
  · simp only [progress_group.ProgressGroup.GetContent, hpieces, Option.map_some']
  · simp only [List.append_assoc, List.cons_append, List.nil_append]
    exact ⟨[_, _, _, _, _, _, _, _, _], _, rfl⟩
  · refine strings_Contains_trans (Markup_text_contains_of_pieces _ _ hinf) ?_
    refine strings_Contains_of_data_eq _ _ "%;".data "></div>\n            ".data ?_
    simp only [Markup.text, tmpl.Piece.text, String.data_append, List.append_assoc]
    rfl
  · simp [Markup.hasStatic]; decide

/-- A `ProgressGroup` whose `IsHexColor` is false renders its color as the
suffix of the class `progress-bar-`. -/
theorem progress_group_render_class (H : tmpl.Host) (c : progress_group.ProgressGroup)
    (hb : c.BaseComponent = progress_group.New.BaseComponent) (hf : c.IsHexColor = false) :
    ∃ m : Markup, c.GetContentPieces H = some m ∧ c.GetContent H = some (Markup.text m) ∧
      [.lit "\n                <div class=\"progress-bar progress-bar-",
       .sub (H.escapeHTML .attr c.Color), .lit "\" style=\"width: "] <:+: m ∧
      strings.Contains (Markup.text m)
        ("class=\"progress-bar progress-bar-" ++ H.escapeHTML .attr c.Color ++ "\"") = true ∧
      m.hasStatic "background-color" = false := by
  have hpieces := progress_group_render_eq H c hb
  rw [hf] at hpieces
  simp only [Bool.false_eq_true, if_false] at hpieces
  refine ⟨_, hpieces, ?_, and_of_left ?_ (fun hinf => ⟨?_, ?_⟩)⟩
  · simp only [progress_group.ProgressGroup.GetContent, hpieces, Option.map_some']
  · simp only [List.append_assoc, List.cons_append, List.nil_append]
    exact ⟨[_, _, _, _, _, _, _], _, rfl⟩
  · refine strings_Contains_trans (Markup_text_contains_of_pieces _ _ hinf) ?_
    refine strings_Contains_of_data_eq _ _ "\n                <div ".data " style=\"width: ".data ?_
    simp only [Markup.text, tmpl.Piece.text, String.data_append, List.append_assoc]
    rfl
  · simp [Markup.hasStatic]; decide

/-- A `SmallBox` carrying the template of `New()` renders its color as the
suffix of the class `bg-` and its icon inside the font-icon element, whatever
its flags; no static text of an inline style is written. -/
theorem smallbox_render_class_fa (H : tmpl.Host) (c : smallbox.SmallBox)
    (hb : c.BaseComponent = smallbox.New.BaseComponent) :
    ∃ m : Markup, c.GetContentPieces H = some m ∧ c.GetContent H = some (Markup.text m) ∧
      [.lit "\n    <div class=\"small-box bg-", .sub (H.escapeHTML .attr c.Color),
       .lit "\">\n        <div class=\"inner\">\n            <h3>"] <:+: m ∧
      [.lit "</p>\n        </div>\n        <div class=\"icon\">\n            <i class=\"fa ",
       .sub (H.escapeHTML .attr c.Icon),
       .lit "\"></i>\n        </div>\n        <a href=\""] <:+: m ∧
      strings.Contains (Markup.text m)
        ("<div class=\"small-box bg-" ++ H.escapeHTML .attr c.Color ++ "\">") = true ∧
      strings.Contains (Markup.text m)
        ("<i class=\"fa " ++ H.escapeHTML .attr c.Icon ++ "\"></i>") = true ∧
      m.hasStatic "background-color" = false ∧ m.hasStatic "style=" = false := by
  have hpieces := smallbox_render_eq H c hb
  refine ⟨_, hpieces, ?_, and_of_left ?_ (fun hinf => and_of_left ?_ (fun hinf2 => ⟨?_, ?_, ?_, ?_⟩))⟩
  · simp only [smallbox.SmallBox.GetContent, hpieces, Option.map_some']
  · exact ⟨[], _, rfl⟩
  · exact ⟨[_, _, _, _, _, _], _, rfl⟩
  · refine strings_Contains_trans (Markup_text_contains_of_pieces _ _ hinf) ?_
    refine strings_Contains_of_data_eq _ _ "\n    ".data
      "\n        <div class=\"inner\">\n            <h3>".data ?_
    simp only [Markup.text, tmpl.Piece.text, String.data_append, List.append_assoc]
    rfl
  · refine strings_Contains_trans (Markup_text_contains_of_pieces _ _ hinf2) ?_
    refine strings_Contains_of_data_eq _ _
      "</p>\n        </div>\n        <div class=\"icon\">\n            ".data
      "\n        </div>\n        <a href=\"".data ?_
    simp only [Markup.text, tmpl.Piece.text, String.data_append, List.append_assoc]
    rfl
  · simp [Markup.hasStatic]; decide
  · simp [Markup.hasStatic]; decide

/-! ## Rendering of colors and icons -/

/-- C2: a color without "#" is rendered as an inline style when the component
has held a hex color before. `New().SetColor("#3c8dbc")` is built by `New()` and
a setter; after `SetColor("red")` on it, InfoBox and ProgressGroup write "red"
into `background-color: ... !important;` of the `style` attribute and write no
static text of the class branch (`bg-`, `progress-bar-`). -/
theorem C2_class_color_after_hex_color (H : tmpl.Host) :
    strings.Contains "red" "#" = false ∧
    infobox.Reachable (infobox.New.SetColor "#3c8dbc") ∧
    progress_group.Reachable (progress_group.New.SetColor "#3c8dbc") ∧
    (∃ m : Markup,
      ((infobox.New.SetColor "#3c8dbc").SetColor "red").GetContentPieces H = some m ∧
      [.lit "\n        <span class=\"info-box-icon\" style=\"background-color: ",
       .sub (H.escapeHTML .css "red"), .lit " !important;\">\n    "] <:+: m ∧
      m.hasStatic "bg-" = false) ∧
    (∃ m : Markup,
      ((progress_group.New.SetColor "#3c8dbc").SetColor "red").GetContentPieces H = some m ∧
      [.lit "%;background-color: ", .sub (H.escapeHTML .css "red"),
       .lit " !important;\"></div>\n            "] <:+: m ∧
      m.hasStatic "progress-bar-" = false) := by
  refine ⟨by decide, .setColor _ _ .new, .setColor _ _ .new, ?_, ?_⟩
  · obtain ⟨m, h1, _, h3, _, h5⟩ :=
      infobox_render_hex H ((infobox.New.SetColor "#3c8dbc").SetColor "red")
        (infobox_Reachable_base (.setColor _ _ (.setColor _ _ .new))) (by decide)
    rw [infobox_SetColor_Color] at h3
    exact ⟨m, h1, h3, h5⟩
  · obtain ⟨m, h1, _, h3, _, h5⟩ :=
      progress_group_render_hex H ((progress_group.New.SetColor "#3c8dbc").SetColor "red")
        (progress_group_Reachable_base (.setColor _ _ (.setColor _ _ .new))) (by decide)
    rw [progress_group_SetColor_Color] at h3
    exact ⟨m, h1, h3, h5⟩

/-- C4: SmallBox renders every color as the suffix of the class `bg-`, a hex
color too. `SetColor("#3c8dbc")` sets `IsHexColor`, but for every `v` the markup
of `New().SetColor(v)` has `<div class="small-box bg-<v>">` and no static text
of an inline style: the template has no branch on `IsHexColor`. -/
theorem C4_smallbox_color_always_class (H : tmpl.Host) (v : String) :
    strings.Contains "#3c8dbc" "#" = true ∧
    (smallbox.New.SetColor "#3c8dbc").IsHexColor = true ∧
    ∃ m : Markup, (smallbox.New.SetColor v).GetContentPieces H = some m ∧
      (smallbox.New.SetColor v).GetContent H = some (Markup.text m) ∧
      [.lit "\n    <div class=\"small-box bg-", .sub (H.escapeHTML .attr v),
       .lit "\">\n        <div class=\"inner\">\n            <h3>"] <:+: m ∧
      strings.Contains (Markup.text m)
        ("<div class=\"small-box bg-" ++ H.escapeHTML .attr v ++ "\">") = true ∧
      m.hasStatic "background-color" = false ∧ m.hasStatic "style=" = false := by
  refine ⟨by decide, by decide, ?_⟩
  obtain ⟨m, h1, h2, h3, _, h5, _, h7, h8⟩ :=
    smallbox_render_class_fa H (smallbox.New.SetColor v) (smallbox_SetColor_base _ _)
  rw [smallbox_SetColor_Color] at h3 h5
  exact ⟨m, h1, h2, h3, h5, h7, h8⟩

/-- C5: SmallBox wraps every icon in the font-icon element, an icon containing
"svg" too. `SetIcon("<svg></svg>")` sets `IsSvg`, but for every `v` the markup
of `New().SetIcon(v)` has `<i class="fa <v>"></i>` (`v` as the engine sanitises
an attribute value): the template has no branch on `IsSvg`. -/
theorem C5_smallbox_icon_always_wrapped (H : tmpl.Host) (v : String) :
    strings.Contains "<svg></svg>" "svg" = true ∧
    (smallbox.New.SetIcon "<svg></svg>").IsSvg = true ∧
    ∃ m : Markup, (smallbox.New.SetIcon v).GetContentPieces H = some m ∧
      (smallbox.New.SetIcon v).GetContent H = some (Markup.text m) ∧
      [.lit "</p>\n        </div>\n        <div class=\"icon\">\n            <i class=\"fa ",
       .sub (H.escapeHTML .attr v),
       .lit "\"></i>\n        </div>\n        <a href=\""] <:+: m ∧
      strings.Contains (Markup.text m)
        ("<i class=\"fa " ++ H.escapeHTML .attr v ++ "\"></i>") = true := by
  refine ⟨by decide, by decide, ?_⟩
  obtain ⟨m, h1, h2, _, h4, _, h6, _, _⟩ :=
    smallbox_render_class_fa H (smallbox.New.SetIcon v) (smallbox_SetIcon_base _ _)
  rw [smallbox_SetIcon_Icon] at h4 h6
  exact ⟨m, h1, h2, h4, h6⟩

/-! ## ProductList -/

theorem Markup_concat_enumFrom (f : StringMap → Markup)
    (g : Nat × StringMap → Option Markup) (hg : ∀ p, g p = some (f p.2)) (ms : List StringMap)
    (n : Nat) : Markup.concat ((ms.enumFrom n).map g) = some (ms.map f).flatten := by
  induction ms generalizing n with
  | nil => rfl
  | cons r rs ih =>
    simp only [List.enumFrom_cons, List.map_cons, Markup.concat, hg, ih, List.flatten_cons]

/-- A `range` whose body renders every element `r` to `f r` renders the slice
to the pieces of its elements, in order. -/
theorem tmpl_execNode_range (H : tmpl.Host) (env : tmpl.Env) (k v : String) (e : tmpl.Expr)
    (b : tmpl.Nodes) (ms : List StringMap) (f : StringMap → Markup)
    (he : tmpl.eval H env e = some (.maps ms))
    (hb : ∀ (i : Nat) (r : StringMap),
      tmpl.execList H ⟨.elem r, (v, .map r) :: (k, .int i) :: env.vars⟩ b = some (f r)) :
    tmpl.execNode H env (.range k v e b) = some (ms.map f).flatten := by
  rw [tmpl.execNode, he]
  exact Markup_concat_enumFrom f _ (fun p => hb p.1 p.2) ms 0

theorem productlist_exec_itemBody (H : tmpl.Host) (r : StringMap)
    (vars : tmpl.Fields) :
    tmpl.execList H ⟨.elem r, ("data", .map r) :: vars⟩ productlist.itemBody
      = some (productlist.item H r) := by
  by_cases h : tmpl.mapIndex r "has_tabel" = "true" <;>
    simp [productlist.itemBody, productlist.item, tmpl.execList, tmpl.execNode, tmpl.eval,
      tmpl.substitute, tmpl.truth, tmpl.indexValue, tmpl.eqValue, List.lookup, h]

/-- The pieces a `ProductList` carrying the template of `New()` renders to. -/
theorem productlist_render_eq (H : tmpl.Host) (p : productlist.ProductList)
    (hb : p.BaseComponent = productlist.New.BaseComponent) :
    p.GetContentPieces H = some
      ([.lit "\n<ul class=\"products-list product-list-in-box\">\n    "] ++
        (p.Data.map (productlist.item H)).flatten ++ [.lit "\n</ul>\n"]) := by
  simp only [productlist.ProductList.GetContentPieces, hb, productlist.New,
    BaseComponent.GetContentWithData, tmpl_parse_productlist]
  simp only [productlist.template, tmpl.execList, if_true]
  rw [tmpl_execNode_range H _ "key" "data" _ _ p.Data (productlist.item H) (by rfl)
    (fun i r => productlist_exec_itemBody H r _)]
  simp [tmpl.execNode]

/-- The item of a record has the label span exactly when the entry `has_tabel`
is "true". -/
theorem productlist_item_label (H : tmpl.Host) (r : StringMap) :
    ((productlist.item H r).hasStatic "<span class=\"label label-" = true
        ↔ tmpl.mapIndex r "has_tabel" = "true") ∧
    (tmpl.mapIndex r "has_tabel" = "true" →
      [.lit "\n                    <span class=\"label label-",
       .sub (H.escapeString .attr (tmpl.mapIndex r "labeltype")),
       .lit " pull-right\">"] <:+: productlist.item H r ∧
      strings.Contains (Markup.text (productlist.item H r))
        ("<span class=\"label label-" ++ H.escapeString .attr (tmpl.mapIndex r "labeltype")
          ++ " pull-right\">") = true) := by
  by_cases h : tmpl.mapIndex r "has_tabel" = "true"
  · have hinf : ([.lit "\n                    <span class=\"label label-",
        .sub (H.escapeString .attr (tmpl.mapIndex r "labeltype")),
        .lit " pull-right\">"] : Markup) <:+: productlist.item H r := by
      simp only [productlist.item, h, if_true, List.append_assoc, List.cons_append,
        List.nil_append]
      exact ⟨[_, _, _, _, _], _, rfl⟩
    refine ⟨⟨fun _ => h, fun _ => ?_⟩, fun _ => ⟨hinf, ?_⟩⟩
    · simp [productlist.item, h, Markup.hasStatic]
      decide
    · refine strings_Contains_trans (Markup_text_contains_of_pieces _ _ hinf) ?_
      refine strings_Contains_of_data_eq _ _ "\n                    ".data [] ?_
      simp only [Markup.text, tmpl.Piece.text, String.data_append, List.append_assoc]
      rfl
  · refine ⟨⟨fun hs => ?_, fun ht => absurd ht h⟩, fun ht => absurd ht h⟩
    exfalso
    revert hs
    simp [productlist.item, h, Markup.hasStatic]
    decide

/-! ## Asset resolution -/

theorem strings_replaceChars_skip (old new xs rest : List Char) :
    strings.replaceChars old new xs.length (xs ++ rest) = strings.replaceChars old new 0 rest := by
  induction xs with
  | nil => rfl
  | cons x xs ih => simpa [strings.replaceChars] using ih

/-- An occurrence of `old` at the head is replaced, and the scan goes on behind
it. -/
theorem strings_replaceChars_head (c : Char) (cs new rest : List Char) :
    strings.replaceChars (c :: cs) new 0 (c :: cs ++ rest)
      = new ++ strings.replaceChars (c :: cs) new 0 rest := by
  have hp : (c :: cs).isPrefixOf (c :: (cs ++ rest)) = true := by
    rw [List.isPrefixOf_iff_prefix]
    exact ⟨rest, rfl⟩
  rw [List.cons_append, strings.replaceChars, if_pos hp]
  simp only [List.length_cons, Nat.add_sub_cancel]
  rw [strings_replaceChars_skip]

/-- A text without occurrence of `old` is left as it is. -/
theorem strings_replaceChars_of_not_contains (old new s : List Char)
    (h : strings.containsChars old s = false) : strings.replaceChars old new 0 s = s := by
  induction s with
  | nil => rfl
  | cons c cs ih =>
    simp only [strings.containsChars, Bool.or_eq_false_iff] at h
    rw [strings.replaceChars, if_neg (by simp [h.1]), ih h.2]

/-- C8: for a path `"/assets/dist" ++ rest`, `rest` holding no further
occurrence of "/assets/dist", the standard theme queries the bundle with
exactly `"assets/dist" ++ rest`, and `GetAsset` returns what the bundle's
`ReadFile` returns for that key, bytes and error. -/
theorem C8_standard_asset_key (t : adminlte.Theme) (ReadFile : String → ReadResult)
    (rest : String) (h : strings.Contains rest "/assets/dist" = false) :
    strings.ReplaceAll ("/assets/dist" ++ rest) "/assets/dist" "assets/dist"
      = "assets/dist" ++ rest ∧
    t.GetAsset ReadFile ("/assets/dist" ++ rest) = ReadFile ("assets/dist" ++ rest) := by
  have hkey : strings.ReplaceAll ("/assets/dist" ++ rest) "/assets/dist" "assets/dist"
      = "assets/dist" ++ rest := by
    apply String.ext
    simp only [strings.ReplaceAll, String.data_append]
    rw [strings_replaceChars_head, strings_replaceChars_of_not_contains _ _ _ h]
  exact ⟨hkey, by simp only [adminlte.Theme.GetAsset, hkey]⟩

/-- C8 on a concrete input: the path "/assets/dist/css/x.css" is looked up as
"assets/dist/css/x.css". -/
theorem C8_standard_asset_key_witness :
    strings.Contains "/css/x.css" "/assets/dist" = false ∧
    strings.ReplaceAll ("/assets/dist" ++ "/css/x.css") "/assets/dist" "assets/dist"
      = "assets/dist" ++ "/css/x.css" ∧
    adminlte.Adminlte.GetAsset
        (fun key => if key = "assets/dist/css/x.css" then ⟨[98, 111, 100, 121], none⟩
          else ⟨[], some "file does not exist"⟩)
        ("/assets/dist" ++ "/css/x.css")
      = (fun key => if key = "assets/dist/css/x.css" then ⟨[98, 111, 100, 121], none⟩
          else ⟨[], some "file does not exist"⟩) ("assets/dist" ++ "/css/x.css") :=
  ⟨by decide, C8_standard_asset_key adminlte.Adminlte _ "/css/x.css" (by decide)⟩

/-- C9: the separated theme reads the file at the configured root followed by
the path (root "/srv/static" and path "/css/x.css" give "/srv/static/css/x.css")
and returns the result of the read unchanged, on every file system; where there
is no readable file at that name, the result carries the error of the read and
no bytes. -/
theorem C9_separated_asset_read (t : separation.Theme) (root path : String)
    (fs : os.FileSystem) (e : String) (hmissing : fs (root ++ path) = .error e) :
    (∀ fs2 : os.FileSystem, t.GetAsset root fs2 path = os.ReadFile fs2 (root ++ path)) ∧
    (∀ (fs2 : os.FileSystem) (content : List UInt8), fs2 (root ++ path) = .ok content →
      t.GetAsset root fs2 path = ⟨content, none⟩) ∧
    t.GetAsset root fs path = ⟨[], some e⟩ ∧
    (t.GetAsset root fs path).err ≠ none ∧
    (∀ fs2 : os.FileSystem, t.GetAsset "/srv/static" fs2 "/css/x.css"
      = os.ReadFile fs2 "/srv/static/css/x.css") := by
  refine ⟨fun _ => rfl, fun fs2 content h => ?_, ?_, ?_, fun _ => rfl⟩
  · simp only [separation.Theme.GetAsset, os.ReadFile, h]
  · simp only [separation.Theme.GetAsset, os.ReadFile, hmissing]
  · simp only [separation.Theme.GetAsset, os.ReadFile, hmissing]
    exact Option.some_ne_none e

/-- C9 on a concrete input: root "/srv/static", path "/css/x.css", on a file
system without files. -/
theorem C9_separated_asset_read_witness :
    ((fun _ => .error "no such file or directory" : os.FileSystem)
        ("/srv/static" ++ "/css/x.css") = .error "no such file or directory") ∧
    separation.Adminlte.GetAsset "/srv/static"
        (fun _ => .error "no such file or directory") "/css/x.css"
      = ⟨[], some "no such file or directory"⟩ :=
  ⟨rfl, (C9_separated_asset_read separation.Adminlte "/srv/static" "/css/x.css"
    (fun _ => .error "no such file or directory") "no such file or directory" rfl).2.2.1⟩

/-- C10: every setter replaces exactly its own field. The result is the
receiver with the named field set to the argument, every other field and the
template identity (`BaseComponent`: `Name`, `HTMLData`) being the receiver's;
`SetColor` of InfoBox, SmallBox and ProgressGroup may besides change only
`IsHexColor`, and `SetIcon` of InfoBox and SmallBox only `IsSvg`. -/
theorem C10_setters_replace_own_field :
    (∀ (c : description.Description) (v : String),
      c.SetNumber v = { c with Number := v } ∧ c.SetTitle v = { c with Title := v } ∧
      c.SetArrow v = { c with Arrow := v } ∧ c.SetPercent v = { c with Percent := v } ∧
      c.SetColor v = { c with Color := v } ∧ c.SetBorder v = { c with Border := v }) ∧
    (∀ (c : infobox.InfoBox) (v : String),
      c.SetText v = { c with Text := v } ∧ c.SetNumber v = { c with Number := v } ∧
      c.SetContent v = { c with Content := v } ∧
      c.SetColor v = { c with Color := v, IsHexColor := (c.SetColor v).IsHexColor } ∧
      c.SetIcon v = { c with Icon := v, IsSvg := (c.SetIcon v).IsSvg }) ∧
    (∀ (c : smallbox.SmallBox) (v : String),
      c.SetTitle v = { c with Title := v } ∧ c.SetValue v = { c with Value := v } ∧
      c.SetUrl v = { c with Url := v } ∧
      c.SetColor v = { c with Color := v, IsHexColor := (c.SetColor v).IsHexColor } ∧
      c.SetIcon v = { c with Icon := v, IsSvg := (c.SetIcon v).IsSvg }) ∧
    (∀ (c : progress_group.ProgressGroup) (v : String) (n : Int),
      c.SetTitle v = { c with Title := v } ∧ c.SetPercent n = { c with Percent := n } ∧
      c.SetDenominator n = { c with Denominator := n } ∧
      c.SetMolecular n = { c with Molecular := n } ∧
      c.SetColor v = { c with Color := v, IsHexColor := (c.SetColor v).IsHexColor }) ∧
    (∀ (c : productlist.ProductList) (d : List StringMap), c.SetData d = { c with Data := d }) ∧
    (∀ (c : chart_legend.ChartLegend) (d : List StringMap), c.SetData d = { c with Data := d }) := by
  refine ⟨fun c v => ⟨rfl, rfl, rfl, rfl, rfl, rfl⟩, fun c v => ⟨rfl, rfl, rfl, ?_, ?_⟩,
    fun c v => ⟨rfl, rfl, rfl, ?_, ?_⟩, fun c v n => ⟨rfl, rfl, rfl, rfl, ?_⟩,
    fun c d => rfl, fun c d => rfl⟩
  · unfold infobox.InfoBox.SetColor; cases strings.Contains v "#" <;> rfl
  · unfold infobox.InfoBox.SetIcon; cases strings.Contains v "svg" <;> rfl
  · unfold smallbox.SmallBox.SetColor; cases strings.Contains v "#" <;> rfl
  · unfold smallbox.SmallBox.SetIcon; cases strings.Contains v "svg" <;> rfl
  · unfold progress_group.ProgressGroup.SetColor; cases strings.Contains v "#" <;> rfl

/-! ## Constructors -/

/-- C11: for each of the six components `New()` returns the value whose
template name is the fixed name of the component, whose template source is the
entry of the package's `List` under that name (the entry exists), and whose
every other field is zero-valued: empty strings, integers 0, nil `Data`,
`IsHexColor` and `IsSvg` false. -/
theorem C11_new_zero_valued :
    (infobox.List.lookup "infobox" = some (tmpl.mapIndex infobox.List "infobox") ∧
      infobox.New =
        { BaseComponent := some ⟨"infobox", tmpl.mapIndex infobox.List "infobox"⟩,
          Icon := "", Text := "", Number := "", Content := "", Color := "",
          IsHexColor := false, IsSvg := false }) ∧
    (smallbox.List.lookup "smallbox" = some (tmpl.mapIndex smallbox.List "smallbox") ∧
      smallbox.New =
        { BaseComponent := some ⟨"smallbox", tmpl.mapIndex smallbox.List "smallbox"⟩,
          Title := "", Value := "", Url := "", Color := "", IsSvg := false,
          IsHexColor := false, Icon := "" }) ∧
    (description.List.lookup "description"
        = some (tmpl.mapIndex description.List "description") ∧
      description.New =
        { BaseComponent := some ⟨"description", tmpl.mapIndex description.List "description"⟩,
          Border := "", Number := "", Title := "", Arrow := "", Color := "", Percent := "" }) ∧
    (progress_group.List.lookup "progress-group"
        = some (tmpl.mapIndex progress_group.List "progress-group") ∧
      progress_group.New =
        { BaseComponent :=
            some ⟨"progress-group", tmpl.mapIndex progress_group.List "progress-group"⟩,
          Title := "", Molecular := 0, Denominator := 0, Color := "", IsHexColor := false,
          Percent := 0 }) ∧
    (productlist.List.lookup "productlist"
        = some (tmpl.mapIndex productlist.List "productlist") ∧
      productlist.New =
        { BaseComponent := some ⟨"productlist", tmpl.mapIndex productlist.List "productlist"⟩,
          Data := [] }) ∧
    (chart_legend.List.lookup "chart-legend"
        = some (tmpl.mapIndex chart_legend.List "chart-legend") ∧
      chart_legend.New =
        { BaseComponent :=
            some ⟨"chart-legend", tmpl.mapIndex chart_legend.List "chart-legend"⟩,
          Data := [] }) :=
  ⟨⟨rfl, rfl⟩, ⟨rfl, rfl⟩, ⟨rfl, rfl⟩, ⟨rfl, rfl⟩, ⟨rfl, rfl⟩, ⟨rfl, rfl⟩⟩

/-! ## ProgressGroup: percent and numbers -/

/-- C12: for every ProgressGroup carrying the template of `New()` and every
integer `n`, negative or above 100 alike, the markup after `SetPercent(n)` gives
the progress bar the width `<n>%` (`n` in decimal, unchanged) in the hex-color
branch and in the class-color branch, and shows the numbers as
`<b>Molecular</b>/Denominator`. -/
theorem C12_progress_percent_width (H : tmpl.Host) (p : progress_group.ProgressGroup)
    (n : Int) (hb : p.BaseComponent = progress_group.New.BaseComponent) :
    ∃ m : Markup, (p.SetPercent n).GetContentPieces H = some m ∧
      (p.SetPercent n).GetContent H = some (Markup.text m) ∧
      [.lit "</span>\n        <span class=\"progress-number\"><b>",
       .sub (toString p.Molecular), .lit "</b>/", .sub (toString p.Denominator),
       .lit "</span>\n\n        <div class=\"progress sm\">\n            "] <:+: m ∧
      strings.Contains (Markup.text m)
        ("<b>" ++ toString p.Molecular ++ "</b>/" ++ toString p.Denominator ++ "</span>")
        = true ∧
      (p.IsHexColor = true →
        [.lit "\n                <div class=\"progress-bar\" style=\"width: ",
         .sub (toString n), .lit "%;background-color: "] <:+: m) ∧
      (p.IsHexColor = false →
        [.lit "\" style=\"width: ", .sub (toString n),
         .lit "%\"></div>\n            "] <:+: m) ∧
      strings.Contains (Markup.text m) ("style=\"width: " ++ toString n ++ "%") = true := by
  have hpieces := progress_group_render_eq H (p.SetPercent n) hb
  have h1 : (p.SetPercent n).Percent = n := rfl
  have h2 : (p.SetPercent n).IsHexColor = p.IsHexColor := rfl
  have h3 : (p.SetPercent n).Molecular = p.Molecular := rfl
  have h4 : (p.SetPercent n).Denominator = p.Denominator := rfl
  rw [h1, h2, h3, h4] at hpieces
  refine ⟨_, hpieces, ?_, and_of_left ?_ (fun hnum => ⟨?_, ?_⟩)⟩
  · simp only [progress_group.ProgressGroup.GetContent, hpieces, Option.map_some']
  · simp only [List.append_assoc, List.cons_append, List.nil_append]
    exact ⟨[_, _], _, rfl⟩
  · refine strings_Contains_trans (Markup_text_contains_of_pieces _ _ hnum) ?_
    refine strings_Contains_of_data_eq _ _
      "</span>\n        <span class=\"progress-number\">".data
      "\n\n        <div class=\"progress sm\">\n            ".data ?_
    simp only [Markup.text, tmpl.Piece.text, String.data_append, List.append_assoc]
    rfl
  · cases hx : p.IsHexColor
    · have hinf : ([.lit "\" style=\"width: ", .sub (toString n),
          .lit "%\"></div>\n            "] : Markup) <:+:
          ([.lit "\n    <div class=\"progress-group\">\n        <span class=\"progress-text\">",
            .sub (H.langHtml (p.SetPercent n).Title),
            .lit "</span>\n        <span class=\"progress-number\"><b>",
            .sub (toString p.Molecular), .lit "</b>/", .sub (toString p.Denominator),
            .lit "</span>\n\n        <div class=\"progress sm\">\n            "] ++
           [.lit "\n                <div class=\"progress-bar progress-bar-",
            .sub (H.escapeHTML .attr (p.SetPercent n).Color), .lit "\" style=\"width: ",
            .sub (toString n), .lit "%\"></div>\n            "] ++
           [.lit "\n        </div>\n    </div>\n"]) := by
        simp only [List.append_assoc, List.cons_append, List.nil_append]
        exact ⟨[_, _, _, _, _, _, _, _, _], _, rfl⟩
      simp only [Bool.false_eq_true, if_false, false_implies, true_implies, true_and]
      refine ⟨hinf, ?_⟩
      refine strings_Contains_trans (Markup_text_contains_of_pieces _ _ hinf) ?_
      refine strings_Contains_of_data_eq _ _ "\" ".data "\"></div>\n            ".data ?_
      simp only [Markup.text, tmpl.Piece.text, String.data_append, List.append_assoc]
      rfl
    · have hinf : ([.lit "\n                <div class=\"progress-bar\" style=\"width: ",
          .sub (toString n), .lit "%;background-color: "] : Markup) <:+:
          ([.lit "\n    <div class=\"progress-group\">\n        <span class=\"progress-text\">",
            .sub (H.langHtml (p.SetPercent n).Title),
            .lit "</span>\n        <span class=\"progress-number\"><b>",
            .sub (toString p.Molecular), .lit "</b>/", .sub (toString p.Denominator),
            .lit "</span>\n\n        <div class=\"progress sm\">\n            "] ++
           [.lit "\n                <div class=\"progress-bar\" style=\"width: ",
            .sub (toString n), .lit "%;background-color: ",
            .sub (H.escapeHTML .css (p.SetPercent n).Color),
            .lit " !important;\"></div>\n            "] ++
           [.lit "\n        </div>\n    </div>\n"]) := by
        simp only [List.append_assoc, List.cons_append, List.nil_append]
        exact ⟨[_, _, _, _, _, _, _], _, rfl⟩
      simp only [if_true, Bool.true_eq_false, false_implies, true_implies, and_true, true_and]
      refine ⟨hinf, ?_⟩
      refine strings_Contains_trans (Markup_text_contains_of_pieces _ _ hinf) ?_
      refine strings_Contains_of_data_eq _ _
        "\n                <div class=\"progress-bar\" ".data ";background-color: ".data ?_
      simp only [Markup.text, tmpl.Piece.text, String.data_append, List.append_assoc]
      rfl

/-- C12 on a concrete input: a hex-colored group with the percent -5 and a
class-colored group with the percent 150. -/
theorem C12_progress_percent_width_witness :
    ((progress_group.New.SetColor "#3c8dbc").BaseComponent
        = progress_group.New.BaseComponent ∧
      toString (-5 : Int) = "-5" ∧ toString (150 : Int) = "150") ∧
    (∃ m : Markup,
      ((progress_group.New.SetColor "#3c8dbc").SetPercent (-5)).GetContentPieces
        tmpl.Host.plain = some m ∧
      [.lit "\n                <div class=\"progress-bar\" style=\"width: ",
       .sub "-5", .lit "%;background-color: "] <:+: m) ∧
    (∃ m : Markup,
      (progress_group.New.SetPercent 150).GetContentPieces tmpl.Host.plain = some m ∧
      [.lit "\" style=\"width: ", .sub "150", .lit "%\"></div>\n            "] <:+: m) := by
  refine ⟨⟨rfl, by decide, by decide⟩, ?_, ?_⟩
  · obtain ⟨m, h1, _, _, _, h5, _, _⟩ :=
      C12_progress_percent_width tmpl.Host.plain (progress_group.New.SetColor "#3c8dbc") (-5)
        rfl
    exact ⟨m, h1, h5 (by decide)⟩
  · obtain ⟨m, h1, _, _, _, _, h6, _⟩ :=
      C12_progress_percent_width tmpl.Host.plain progress_group.New 150 rfl
    exact ⟨m, h1, h6 rfl⟩

/-! ## ChartLegend -/

theorem chart_legend_exec_itemBody (H : tmpl.Host) (r : StringMap) (vars : tmpl.Fields) :
    tmpl.execList H ⟨.elem r, ("data", .map r) :: vars⟩ chart_legend.itemBody
      = some (chart_legend.item H r) := by
  simp [chart_legend.itemBody, chart_legend.item, tmpl.execList, tmpl.execNode, tmpl.eval,
    tmpl.substitute, tmpl.indexValue, List.lookup]

/-- The pieces a `ChartLegend` carrying the template of `New()` renders to. -/
theorem chart_legend_render_eq (H : tmpl.Host) (c : chart_legend.ChartLegend)
    (hb : c.BaseComponent = chart_legend.New.BaseComponent) :
    c.GetContentPieces H = some
      ([.lit "\n<ul class=\"chart-legend clearfix\">\n    "] ++
        (c.Data.map (chart_legend.item H)).flatten ++ [.lit "\n</ul>\n"]) := by
  simp only [chart_legend.ChartLegend.GetContentPieces, hb, chart_legend.New,
    BaseComponent.GetContentWithData, tmpl_parse_chart_legend]
  simp only [chart_legend.template, tmpl.execList, if_true]
  rw [tmpl_execNode_range H _ "key" "data" _ _ c.Data (chart_legend.item H) (by rfl)
    (fun i r => chart_legend_exec_itemBody H r _)]
  simp [tmpl.execNode]

theorem Markup_countStatic_append (a b : Markup) (s : String) :
    Markup.countStatic (a ++ b) s = Markup.countStatic a s + Markup.countStatic b s := by
  simp only [Markup.countStatic, List.countP_append]

theorem chart_legend_countStatic_item (H : tmpl.Host) (r : StringMap) :
    Markup.countStatic (chart_legend.item H r) "<li>" = 1 := by
  have h1 : strings.Contains "\n        <li><i class=\"fa fa-circle-o text-" "<li>" = true := by
    decide
  have h2 : strings.Contains "\"></i>" "<li>" = false := by decide
  have h3 : strings.Contains "</li>\n    " "<li>" = false := by decide
  simp [Markup.countStatic, chart_legend.item, List.countP_cons, h1, h2, h3]

theorem chart_legend_countStatic_items (H : tmpl.Host) (rs : List StringMap) :
    Markup.countStatic (rs.map (chart_legend.item H)).flatten "<li>" = rs.length := by
  induction rs with
  | nil => rfl
  | cons r rs ih =>
    rw [List.map_cons, List.flatten_cons, Markup_countStatic_append,
      chart_legend_countStatic_item, ih, List.length_cons, Nat.add_comm]

/-! ## Themes: names and registration -/

/-- C14: `Get()` returns the package-level instance `Adminlte` and `Name()`
returns its `ThemeName`: exactly "adminlte" for the standard variant and
exactly "adminlte_sep" for the separated variant; the two names differ, and each
is the key under which `init` registers the instance. -/
theorem C14_theme_names :
    adminlte.Get = adminlte.Adminlte ∧
    adminlte.Get.Name = adminlte.Adminlte.ThemeName ∧
    adminlte.Get.Name = "adminlte" ∧
    separation.Get = separation.Adminlte ∧
    separation.Get.Name = separation.Adminlte.ThemeName ∧
    separation.Get.Name = "adminlte_sep" ∧
    adminlte.Get.Name ≠ separation.Get.Name ∧
    adminlte.init.theme = .standard adminlte.Get ∧
    adminlte.init.name = adminlte.Get.Name ∧
    separation.init.theme = .separated separation.Get ∧
    separation.init.name = separation.Get.Name := by
  refine ⟨rfl, rfl, rfl, rfl, rfl, rfl, by decide, rfl, rfl, rfl, rfl⟩

theorem adminTemplate_Get_Add_same (reg : adminTemplate.Registry) (name : String)
    (t : ThemeRef) : adminTemplate.Get (adminTemplate.Add reg name t) name = some t := by
  simp [adminTemplate.Get, adminTemplate.Add, List.lookup]

theorem adminTemplate_lookup_filter (reg : adminTemplate.Registry) (name other : String)
    (h : other ≠ name) :
    List.lookup other (reg.filter fun e => e.1 != name) = List.lookup other reg := by
  induction reg with
  | nil => rfl
  | cons e es ih =>
    obtain ⟨k, v⟩ := e
    by_cases hk : k = name
    · subst hk
      have hne : (other == k) = false := by simpa using h
      simp [List.filter, List.lookup, hne, ih]
    · have hk2 : (k != name) = true := by simpa using hk
      simp only [List.filter, hk2, List.lookup, ih]

theorem adminTemplate_Get_Add_other (reg : adminTemplate.Registry) (name other : String)
    (t : ThemeRef) (h : other ≠ name) :
    adminTemplate.Get (adminTemplate.Add reg name t) other = adminTemplate.Get reg other := by
  have hne : (other == name) = false := by simpa using h
  simp only [adminTemplate.Get, adminTemplate.Add, List.lookup, hne]
  exact adminTemplate_lookup_filter reg name other h

theorem adminTemplate_entries_Add (reg : adminTemplate.Registry) (name : String)
    (t : ThemeRef) :
    (adminTemplate.Add reg name t).filter (fun e => e.1 == name) = [(name, t)] := by
  simp only [adminTemplate.Add, List.filter, beq_self_eq_true, List.filter_filter]
  simp

/-- C16: after the two `init` functions have run, in either order and on any
theme table, the lookup of "adminlte" returns the standard instance and the
lookup of "adminlte_sep" the separated one; and after a second `Add` under a
name already registered the lookup of that name returns the theme registered
last, the table holds this one entry for the name, and the other names are
looked up as before; `Add` has no error result. -/
theorem C16_theme_registration (reg : adminTemplate.Registry) (name other : String)
    (t1 t2 : ThemeRef) :
    adminTemplate.Get (separation.init.run (adminlte.init.run reg)) "adminlte"
      = some (.standard adminlte.Adminlte) ∧
    adminTemplate.Get (separation.init.run (adminlte.init.run reg)) "adminlte_sep"
      = some (.separated separation.Adminlte) ∧
    adminTemplate.Get (adminlte.init.run (separation.init.run reg)) "adminlte"
      = some (.standard adminlte.Adminlte) ∧
    adminTemplate.Get (adminlte.init.run (separation.init.run reg)) "adminlte_sep"
      = some (.separated separation.Adminlte) ∧
    adminTemplate.Get (adminTemplate.Add (adminTemplate.Add reg name t1) name t2) name
      = some t2 ∧
    (adminTemplate.Add (adminTemplate.Add reg name t1) name t2).filter
      (fun e => e.1 == name) = [(name, t2)] ∧
    adminTemplate.Get (adminTemplate.Add (adminTemplate.Add reg name t1) name t2) other
      = (if other = name then some t2 else adminTemplate.Get reg other) := by
  refine ⟨?_, ?_, ?_, ?_, ?_, ?_, ?_⟩
  · rw [adminTemplate.AddCall.run, adminTemplate.AddCall.run,
      adminTemplate_Get_Add_other _ _ _ _ (by decide)]
    exact adminTemplate_Get_Add_same _ _ _
  · exact adminTemplate_Get_Add_same _ _ _
  · exact adminTemplate_Get_Add_same _ _ _
  · rw [adminTemplate.AddCall.run, adminTemplate.AddCall.run,
      adminTemplate_Get_Add_other _ _ _ _ (by decide)]
    exact adminTemplate_Get_Add_same _ _ _
  · exact adminTemplate_Get_Add_same _ _ _
  · exact adminTemplate_entries_Add _ _ _
  · by_cases h : other = name
    · rw [if_pos h, h]
      exact adminTemplate_Get_Add_same _ _ _
    · rw [if_neg h, adminTemplate_Get_Add_other _ _ _ _ h,
        adminTemplate_Get_Add_other _ _ _ _ h]

/-! ## Standard asset resolution: every occurrence is rewritten -/

/-- An occurrence of `old` at the head of `pre ++ old ++ rest`, `pre` not
empty, lies within `pre` followed by `old` without its last character. -/
theorem strings_head_occurrence_early (old pre rest : List Char) (hold : old ≠ [])
    (hpre : pre ≠ []) (h : old <+: pre ++ old ++ rest) : old <:+: pre ++ old.dropLast := by
  have e : (pre ++ old.dropLast) ++ ([old.getLast hold] ++ rest) = pre ++ old ++ rest := by
    rw [List.append_assoc, ← List.append_assoc old.dropLast, List.dropLast_append_getLast,
      List.append_assoc]
  have h2 : pre ++ old.dropLast <+: pre ++ old ++ rest := ⟨_, e⟩
  have hl : old.length ≤ (pre ++ old.dropLast).length := by
    have hp := List.length_pos.mpr hpre
    have ho := List.length_pos.mpr hold
    rw [List.length_append, List.length_dropLast]
    omega
  exact (List.prefix_of_prefix_length_le h h2 hl).isInfix

/-- The first occurrence of `old` is replaced, and the scan goes on behind
it. -/
theorem strings_replaceChars_first (c : Char) (cs new pre rest : List Char)
    (h : strings.containsChars (c :: cs) (pre ++ (c :: cs).dropLast) = false) :
    strings.replaceChars (c :: cs) new 0 (pre ++ (c :: cs) ++ rest)
      = pre ++ new ++ strings.replaceChars (c :: cs) new 0 rest := by
  induction pre with
  | nil => simpa using strings_replaceChars_head c cs new rest
  | cons x xs ih =>
    have hsplit : strings.containsChars (c :: cs) (x :: (xs ++ (c :: cs).dropLast)) = false := h
    simp only [strings.containsChars, Bool.or_eq_false_iff] at hsplit
    have hnp : ¬ (c :: cs).isPrefixOf (x :: (xs ++ (c :: cs) ++ rest)) = true := by
      intro hp
      rw [List.isPrefixOf_iff_prefix] at hp
      have hin := strings_head_occurrence_early (c :: cs) (x :: xs) rest (List.cons_ne_nil _ _)
        (List.cons_ne_nil _ _) (by simpa using hp)
      have hc := (strings_containsChars_iff _ _).mpr hin
      rw [h] at hc
      exact Bool.false_ne_true hc
    have hstep : x :: xs ++ (c :: cs) ++ rest = x :: (xs ++ (c :: cs) ++ rest) := rfl
    rw [hstep, strings.replaceChars, if_neg hnp, ih hsplit.2]
    rfl

/-- C17: the standard `GetAsset` rewrites every occurrence of "/assets/dist",
not only a leading one. A path without occurrence is passed to the bundle
unchanged; in a path `pre ++ "/assets/dist" ++ rest` whose first occurrence is
the one after `pre`, that occurrence becomes "assets/dist" and `rest` is
rewritten in the same way; so "/x/assets/dist/a.css" is looked up as
"/xassets/dist/a.css". `GetAsset` returns what `ReadFile` returns for that
key. -/
theorem C17_standard_asset_every_occurrence (t : adminlte.Theme)
    (ReadFile : String → ReadResult) (p pre rest : String)
    (hno : strings.Contains p "/assets/dist" = false)
    (hfirst : strings.Contains (pre ++ "/assets/dis") "/assets/dist" = false) :
    strings.ReplaceAll p "/assets/dist" "assets/dist" = p ∧
    t.GetAsset ReadFile p = ReadFile p ∧
    strings.ReplaceAll (pre ++ "/assets/dist" ++ rest) "/assets/dist" "assets/dist"
      = pre ++ "assets/dist" ++ strings.ReplaceAll rest "/assets/dist" "assets/dist" ∧
    t.GetAsset ReadFile (pre ++ "/assets/dist" ++ rest)
      = ReadFile (pre ++ "assets/dist"
          ++ strings.ReplaceAll rest "/assets/dist" "assets/dist") ∧
    strings.ReplaceAll "/x/assets/dist/a.css" "/assets/dist" "assets/dist"
      = "/xassets/dist/a.css" ∧
    t.GetAsset ReadFile "/x/assets/dist/a.css" = ReadFile "/xassets/dist/a.css" ∧
    strings.ReplaceAll "/assets/dist/a/assets/dist/b" "/assets/dist" "assets/dist"
      = "assets/dist/aassets/dist/b" := by
  have h1 : strings.ReplaceAll p "/assets/dist" "assets/dist" = p := by
    apply String.ext
    simp only [strings.ReplaceAll]
    exact strings_replaceChars_of_not_contains _ _ _ hno
  have h2 : strings.ReplaceAll (pre ++ "/assets/dist" ++ rest) "/assets/dist" "assets/dist"
      = pre ++ "assets/dist" ++ strings.ReplaceAll rest "/assets/dist" "assets/dist" := by
    apply String.ext
    simp only [strings.ReplaceAll, String.data_append]
    refine strings_replaceChars_first _ _ _ _ _ ?_
    simpa only [strings.Contains, String.data_append] using hfirst
  have h3 : strings.ReplaceAll "/x/assets/dist/a.css" "/assets/dist" "assets/dist"
      = "/xassets/dist/a.css" := by decide
  refine ⟨h1, ?_, h2, ?_, h3, ?_, by decide⟩
  · simp only [adminlte.Theme.GetAsset, h1]
  · simp only [adminlte.Theme.GetAsset, h2]
  · simp only [adminlte.Theme.GetAsset, h3]

/-- C17 on a concrete input: "/css/x.css" has no occurrence; in
"/x/assets/dist/a.css" the first occurrence stands after "/x". -/
theorem C17_standard_asset_every_occurrence_witness :
    (strings.Contains "/css/x.css" "/assets/dist" = false ∧
      strings.Contains ("/x" ++ "/assets/dis") "/assets/dist" = false) ∧
    strings.ReplaceAll "/css/x.css" "/assets/dist" "assets/dist" = "/css/x.css" ∧
    strings.ReplaceAll ("/x" ++ "/assets/dist" ++ "/a.css") "/assets/dist" "assets/dist"
      = "/x" ++ "assets/dist" ++ strings.ReplaceAll "/a.css" "/assets/dist" "assets/dist" := by
  have h := C17_standard_asset_every_occurrence adminlte.Adminlte
    (fun _ => ⟨[], some "file does not exist"⟩) "/css/x.css" "/x" "/a.css" (by decide)
    (by decide)
  exact ⟨⟨by decide, by decide⟩, h.1, h.2.2.1⟩

/-! ## The component renders its own template -/

set_option maxRecDepth 100000 in
theorem infobox_own_template (H : tmpl.Host) (data : tmpl.Fields) :
    infobox.List.lookup "infobox" = some (tmpl.mapIndex infobox.List "infobox") ∧
    infobox.New.BaseComponent = some ⟨"infobox", tmpl.mapIndex infobox.List "infobox"⟩ ∧
    strings.HasPrefix (tmpl.mapIndex infobox.List "infobox")
      "\x7b\x7bdefine \"infobox\"\x7d\x7d" = true ∧
    strings.HasSuffix (tmpl.mapIndex infobox.List "infobox") "\x7b\x7bend\x7d\x7d" = true ∧
    infobox.template.source = tmpl.mapIndex infobox.List "infobox" ∧
    infobox.template.name = "infobox" ∧
    BaseComponent.GetContentWithData H infobox.New.BaseComponent data
      = tmpl.execList H ⟨.struct data, []⟩ infobox.template.body := by
  refine ⟨rfl, rfl, rfl, rfl, rfl, rfl, ?_⟩
  simp only [infobox.New, BaseComponent.GetContentWithData, tmpl_parse_infobox]
  rfl

set_option maxRecDepth 100000 in
theorem smallbox_own_template (H : tmpl.Host) (data : tmpl.Fields) :
    smallbox.List.lookup "smallbox" = some (tmpl.mapIndex smallbox.List "smallbox") ∧
    smallbox.New.BaseComponent = some ⟨"smallbox", tmpl.mapIndex smallbox.List "smallbox"⟩ ∧
    strings.HasPrefix (tmpl.mapIndex smallbox.List "smallbox")
      "\x7b\x7bdefine \"smallbox\"\x7d\x7d" = true ∧
    strings.HasSuffix (tmpl.mapIndex smallbox.List "smallbox") "\x7b\x7bend\x7d\x7d" = true ∧
    smallbox.template.source = tmpl.mapIndex smallbox.List "smallbox" ∧
    smallbox.template.name = "smallbox" ∧
    BaseComponent.GetContentWithData H smallbox.New.BaseComponent data
      = tmpl.execList H ⟨.struct data, []⟩ smallbox.template.body := by
  refine ⟨rfl, rfl, rfl, rfl, rfl, rfl, ?_⟩
  simp only [smallbox.New, BaseComponent.GetContentWithData, tmpl_parse_smallbox]
  rfl

set_option maxRecDepth 100000 in
theorem description_own_template (H : tmpl.Host) (data : tmpl.Fields) :
    description.List.lookup "description" = some (tmpl.mapIndex description.List "description") ∧
    description.New.BaseComponent = some ⟨"description", tmpl.mapIndex description.List "description"⟩ ∧
    strings.HasPrefix (tmpl.mapIndex description.List "description")
      "\x7b\x7bdefine \"description\"\x7d\x7d" = true ∧
    strings.HasSuffix (tmpl.mapIndex description.List "description") "\x7b\x7bend\x7d\x7d" = true ∧
    description.template.source = tmpl.mapIndex description.List "description" ∧
    description.template.name = "description" ∧
    BaseComponent.GetContentWithData H description.New.BaseComponent data
      = tmpl.execList H ⟨.struct data, []⟩ description.template.body := by
  refine ⟨rfl, rfl, rfl, rfl, rfl, rfl, ?_⟩
  simp only [description.New, BaseComponent.GetContentWithData, tmpl_parse_description]
  rfl

set_option maxRecDepth 100000 in
theorem progress_group_own_template (H : tmpl.Host) (data : tmpl.Fields) :
    progress_group.List.lookup "progress-group" = some (tmpl.mapIndex progress_group.List "progress-group") ∧
    progress_group.New.BaseComponent = some ⟨"progress-group", tmpl.mapIndex progress_group.List "progress-group"⟩ ∧
    strings.HasPrefix (tmpl.mapIndex progress_group.List "progress-group")
      "\x7b\x7bdefine \"progress-group\"\x7d\x7d" = true ∧
    strings.HasSuffix (tmpl.mapIndex progress_group.List "progress-group") "\x7b\x7bend\x7d\x7d" = true ∧
    progress_group.template.source = tmpl.mapIndex progress_group.List "progress-group" ∧
    progress_group.template.name = "progress-group" ∧
    BaseComponent.GetContentWithData H progress_group.New.BaseComponent data
      = tmpl.execList H ⟨.struct data, []⟩ progress_group.template.body := by
  refine ⟨rfl, rfl, rfl, rfl, rfl, rfl, ?_⟩
  simp only [progress_group.New, BaseComponent.GetContentWithData, tmpl_parse_progress_group]
  rfl

set_option maxRecDepth 100000 in
theorem productlist_own_template (H : tmpl.Host) (data : tmpl.Fields) :
    productlist.List.lookup "productlist" = some (tmpl.mapIndex productlist.List "productlist") ∧
    productlist.New.BaseComponent = some ⟨"productlist", tmpl.mapIndex productlist.List "productlist"⟩ ∧
    strings.HasPrefix (tmpl.mapIndex productlist.List "productlist")
      "\x7b\x7bdefine \"productlist\"\x7d\x7d" = true ∧
    strings.HasSuffix (tmpl.mapIndex productlist.List "productlist") "\x7b\x7bend\x7d\x7d" = true ∧
    productlist.template.source = tmpl.mapIndex productlist.List "productlist" ∧
    productlist.template.name = "productlist" ∧
    BaseComponent.GetContentWithData H productlist.New.BaseComponent data
      = tmpl.execList H ⟨.struct data, []⟩ productlist.template.body := by
  refine ⟨rfl, rfl, rfl, rfl, rfl, rfl, ?_⟩
  simp only [productlist.New, BaseComponent.GetContentWithData, tmpl_parse_productlist]
  rfl

set_option maxRecDepth 100000 in
theorem chart_legend_own_template (H : tmpl.Host) (data : tmpl.Fields) :
    chart_legend.List.lookup "chart-legend" = some (tmpl.mapIndex chart_legend.List "chart-legend") ∧
    chart_legend.New.BaseComponent = some ⟨"chart-legend", tmpl.mapIndex chart_legend.List "chart-legend"⟩ ∧
    strings.HasPrefix (tmpl.mapIndex chart_legend.List "chart-legend")
      "\x7b\x7bdefine \"chart-legend\"\x7d\x7d" = true ∧
    strings.HasSuffix (tmpl.mapIndex chart_legend.List "chart-legend") "\x7b\x7bend\x7d\x7d" = true ∧
    chart_legend.template.source = tmpl.mapIndex chart_legend.List "chart-legend" ∧
    chart_legend.template.name = "chart-legend" ∧
    BaseComponent.GetContentWithData H chart_legend.New.BaseComponent data
      = tmpl.execList H ⟨.struct data, []⟩ chart_legend.template.body := by
  refine ⟨rfl, rfl, rfl, rfl, rfl, rfl, ?_⟩
  simp only [chart_legend.New, BaseComponent.GetContentWithData, tmpl_parse_chart_legend]
  rfl

/-- C18: for each of the six components the name set by `New()` is a key of
the package's `List`; the source stored under it begins with
`{{define "<name>"}}` and ends with `{{end}}`; it is the source of the
component's syntax tree, whose name is that name; and rendering a component
built by `New()` executes exactly this template on the data. -/
theorem C18_component_own_template (H : tmpl.Host) (data : tmpl.Fields) :
    (infobox.List.lookup "infobox" = some (tmpl.mapIndex infobox.List "infobox") ∧
      infobox.New.BaseComponent = some ⟨"infobox", tmpl.mapIndex infobox.List "infobox"⟩ ∧
      strings.HasPrefix (tmpl.mapIndex infobox.List "infobox")
        "\x7b\x7bdefine \"infobox\"\x7d\x7d" = true ∧
      strings.HasSuffix (tmpl.mapIndex infobox.List "infobox") "\x7b\x7bend\x7d\x7d" = true ∧
      infobox.template.source = tmpl.mapIndex infobox.List "infobox" ∧
      infobox.template.name = "infobox" ∧
      BaseComponent.GetContentWithData H infobox.New.BaseComponent data
        = tmpl.execList H ⟨.struct data, []⟩ infobox.template.body) ∧
    (smallbox.List.lookup "smallbox" = some (tmpl.mapIndex smallbox.List "smallbox") ∧
      smallbox.New.BaseComponent = some ⟨"smallbox", tmpl.mapIndex smallbox.List "smallbox"⟩ ∧
      strings.HasPrefix (tmpl.mapIndex smallbox.List "smallbox")
        "\x7b\x7bdefine \"smallbox\"\x7d\x7d" = true ∧
      strings.HasSuffix (tmpl.mapIndex smallbox.List "smallbox") "\x7b\x7bend\x7d\x7d" = true ∧
      smallbox.template.source = tmpl.mapIndex smallbox.List "smallbox" ∧
      smallbox.template.name = "smallbox" ∧
      BaseComponent.GetContentWithData H smallbox.New.BaseComponent data
        = tmpl.execList H ⟨.struct data, []⟩ smallbox.template.body) ∧
    (description.List.lookup "description" = some (tmpl.mapIndex description.List "description") ∧
      description.New.BaseComponent = some ⟨"description", tmpl.mapIndex description.List "description"⟩ ∧
      strings.HasPrefix (tmpl.mapIndex description.List "description")
        "\x7b\x7bdefine \"description\"\x7d\x7d" = true ∧
      strings.HasSuffix (tmpl.mapIndex description.List "description") "\x7b\x7bend\x7d\x7d" = true ∧
      description.template.source = tmpl.mapIndex description.List "description" ∧
      description.template.name = "description" ∧
      BaseComponent.GetContentWithData H description.New.BaseComponent data
        = tmpl.execList H ⟨.struct data, []⟩ description.template.body) ∧
    (progress_group.List.lookup "progress-group" = some (tmpl.mapIndex progress_group.List "progress-group") ∧
      progress_group.New.BaseComponent = some ⟨"progress-group", tmpl.mapIndex progress_group.List "progress-group"⟩ ∧
      strings.HasPrefix (tmpl.mapIndex progress_group.List "progress-group")
        "\x7b\x7bdefine \"progress-group\"\x7d\x7d" = true ∧
      strings.HasSuffix (tmpl.mapIndex progress_group.List "progress-group") "\x7b\x7bend\x7d\x7d" = true ∧
      progress_group.template.source = tmpl.mapIndex progress_group.List "progress-group" ∧
      progress_group.template.name = "progress-group" ∧
      BaseComponent.GetContentWithData H progress_group.New.BaseComponent data
        = tmpl.execList H ⟨.struct data, []⟩ progress_group.template.body) ∧
    (productlist.List.lookup "productlist" = some (tmpl.mapIndex productlist.List "productlist") ∧
      productlist.New.BaseComponent = some ⟨"productlist", tmpl.mapIndex productlist.List "productlist"⟩ ∧
      strings.HasPrefix (tmpl.mapIndex productlist.List "productlist")
        "\x7b\x7bdefine \"productlist\"\x7d\x7d" = true ∧
      strings.HasSuffix (tmpl.mapIndex productlist.List "productlist") "\x7b\x7bend\x7d\x7d" = true ∧
      productlist.template.source = tmpl.mapIndex productlist.List "productlist" ∧
      productlist.template.name = "productlist" ∧
      BaseComponent.GetContentWithData H productlist.New.BaseComponent data
        = tmpl.execList H ⟨.struct data, []⟩ productlist.template.body) ∧
    (chart_legend.List.lookup "chart-legend" = some (tmpl.mapIndex chart_legend.List "chart-legend") ∧
      chart_legend.New.BaseComponent = some ⟨"chart-legend", tmpl.mapIndex chart_legend.List "chart-legend"⟩ ∧
      strings.HasPrefix (tmpl.mapIndex chart_legend.List "chart-legend")
        "\x7b\x7bdefine \"chart-legend\"\x7d\x7d" = true ∧
      strings.HasSuffix (tmpl.mapIndex chart_legend.List "chart-legend") "\x7b\x7bend\x7d\x7d" = true ∧
      chart_legend.template.source = tmpl.mapIndex chart_legend.List "chart-legend" ∧
      chart_legend.template.name = "chart-legend" ∧
      BaseComponent.GetContentWithData H chart_legend.New.BaseComponent data
        = tmpl.execList H ⟨.struct data, []⟩ chart_legend.template.body) :=
  ⟨infobox_own_template H data, smallbox_own_template H data, description_own_template H data, progress_group_own_template H data, productlist_own_template H data, chart_legend_own_template H data⟩

/-! ## The escaping of `html/template`: values written unchanged -/

theorem htmlTemplate_htmlReplacerChars_plain (norm : Bool) (cs : List Char)
    (h : cs.all (fun c => (htmlTemplate.replacement norm c).isNone) = true) :
    htmlTemplate.htmlReplacerChars norm cs = cs := by
  induction cs with
  | nil => rfl
  | cons c cs ih =>
    simp only [List.all_cons, Bool.and_eq_true, Option.isNone_iff_eq_none] at h
    rw [htmlTemplate.htmlReplacerChars, h.1, ih h.2]

/-- A text without character of the replacement table is written as it is. -/
theorem htmlTemplate_htmlReplacer_plain (norm : Bool) (s : String)
    (h : htmlTemplate.isPlain norm s = true) : htmlTemplate.htmlReplacer norm s = s := by
  apply String.ext
  exact htmlTemplate_htmlReplacerChars_plain norm s.data h

theorem strings_containsChars_single (x : Char) (s : List Char) (h : ∀ c ∈ s, c ≠ x) :
    strings.containsChars [x] s = false := by
  induction s with
  | nil => rfl
  | cons c cs ih =>
    have hc : c ≠ x := h c (List.mem_cons_self _ _)
    have hx : (x == c) = false := by simpa using fun e => hc e.symm
    simp only [strings.containsChars, List.isPrefixOf, hx, Bool.false_and, Bool.false_or]
    exact ih fun d hd => h d (List.mem_cons_of_mem _ hd)

theorem htmlTemplate_isPlain_no_tag (s : String) (h : htmlTemplate.isPlain true s = true) :
    strings.Contains s "<" = false := by
  refine strings_containsChars_single _ _ fun c hc e => ?_
  have hall := List.all_eq_true.mp h c hc
  rw [e] at hall
  exact absurd hall (by decide)

/-- A `template.HTML` value without character of the table (so without tag) is
written in an attribute as it is. -/
theorem htmlTemplate_attrEscaperHTML_plain (L : tmpl.Lib) (s : String)
    (h : htmlTemplate.isPlain true s = true) :
    htmlTemplate.attrEscaperHTML L.stripTags s = s := by
  rw [htmlTemplate.attrEscaperHTML, L.stripTags_text s (htmlTemplate_isPlain_no_tag s h),
    htmlTemplate_htmlReplacer_plain true s h]

theorem htmlTemplate_isPlainCSS_parts (s : String) (h : htmlTemplate.isPlainCSS s = true) :
    s.data.all (fun c => !htmlTemplate.cssRejects c) = true ∧
    htmlTemplate.isPlain false s = true ∧
    htmlTemplate.hasDoubleDash s.data = false ∧
    strings.containsChars "expression".data (htmlTemplate.cssIdent s.data) = false ∧
    strings.containsChars "mozbinding".data (htmlTemplate.cssIdent s.data) = false := by
  simp only [htmlTemplate.isPlainCSS, Bool.and_eq_true, Bool.not_eq_true', List.all_eq_true]
    at h
  obtain ⟨⟨⟨h1, h2⟩, h3⟩, h4⟩ := h
  refine ⟨?_, ?_, h2, h3, h4⟩
  · exact List.all_eq_true.mpr fun c hc => by simp [(h1 c hc).1]
  · exact List.all_eq_true.mpr fun c hc => by simp [(h1 c hc).2]

/-- A value that passes the CSS filter and the attribute escaper unchanged is
written in a `style` attribute as it is. -/
theorem htmlTemplate_css_plain (L : tmpl.Lib) (s : String)
    (h : htmlTemplate.isPlainCSS s = true) :
    htmlTemplate.attrEscaper (htmlTemplate.cssValueFilter L.decodeCSS s) = s := by
  obtain ⟨h1, h2, h3, h4, h5⟩ := htmlTemplate_isPlainCSS_parts s h
  have hbs : strings.Contains s "\x5c" = false := by
    refine strings_containsChars_single _ _ fun c hc e => ?_
    have hall := List.all_eq_true.mp h1 c hc
    rw [e] at hall
    exact absurd hall (by decide)
  have hany : s.data.any htmlTemplate.cssRejects = false := by
    rw [List.any_eq_false]
    intro c hc
    simpa using List.all_eq_true.mp h1 c hc
  have hf : htmlTemplate.cssValueFilter L.decodeCSS s = s := by
    simp [htmlTemplate.cssValueFilter, L.decodeCSS_plain s hbs, hany, h3, h4, h5]
  rw [hf]
  exact htmlTemplate_htmlReplacer_plain false s h2

/-- A value with a rejected character and without backslash is replaced by the
failsafe. -/
theorem htmlTemplate_css_rejected (L : tmpl.Lib) (s : String)
    (hbs : strings.Contains s "\x5c" = false)
    (h : s.data.any htmlTemplate.cssRejects = true) :
    htmlTemplate.attrEscaper (htmlTemplate.cssValueFilter L.decodeCSS s) = "ZgotmplZ" := by
  have hf : htmlTemplate.cssValueFilter L.decodeCSS s = "ZgotmplZ" := by
    simp [htmlTemplate.cssValueFilter, L.decodeCSS_plain s hbs, h, htmlTemplate.filterFailsafe]
  rw [hf]
  decide

/-! ## Colors containing "#" -/

/-- C3: a color containing "#" is rendered in the inline style and
never as a class suffix, and the style holds the color as `html/template`
writes a CSS value in an attribute. For every InfoBox and ProgressGroup built
by `New()` and setters: with a color `v` containing "#" that passes the CSS
filter and the attribute escaper unchanged (`isPlainCSS`, as every hex color
does) the markup has `background-color: <v> !important;` with `v` itself; with
any color `w` containing "#" it has there `attrEscaper (cssValueFilter w)`; in
both cases no static text of the class branch (`bg-`, `progress-bar-`) is
written. -/
theorem C3_hex_color_inline_style (L : tmpl.Lib) (ci : infobox.InfoBox)
    (cp : progress_group.ProgressGroup) (v w : String)
    (hi : infobox.Reachable ci) (hp : progress_group.Reachable cp)
    (hv : strings.Contains v "#" = true) (hplain : htmlTemplate.isPlainCSS v = true)
    (hw : strings.Contains w "#" = true) :
    (∃ m : Markup, (ci.SetColor v).GetContentPieces (tmpl.goHost L) = some m ∧
      (ci.SetColor v).GetContent (tmpl.goHost L) = some (Markup.text m) ∧
      [.lit "\n        <span class=\"info-box-icon\" style=\"background-color: ",
       .sub v, .lit " !important;\">\n    "] <:+: m ∧
      strings.Contains (Markup.text m)
        ("style=\"background-color: " ++ v ++ " !important;\"") = true ∧
      m.hasStatic "bg-" = false) ∧
    (∃ m : Markup, (cp.SetColor v).GetContentPieces (tmpl.goHost L) = some m ∧
      (cp.SetColor v).GetContent (tmpl.goHost L) = some (Markup.text m) ∧
      [.lit "%;background-color: ", .sub v,
       .lit " !important;\"></div>\n            "] <:+: m ∧
      strings.Contains (Markup.text m) ("background-color: " ++ v ++ " !important;\"") = true ∧
      m.hasStatic "progress-bar-" = false) ∧
    (∃ m : Markup, (ci.SetColor w).GetContentPieces (tmpl.goHost L) = some m ∧
      (ci.SetColor w).GetContent (tmpl.goHost L) = some (Markup.text m) ∧
      [.lit "\n        <span class=\"info-box-icon\" style=\"background-color: ",
       .sub (htmlTemplate.attrEscaper (htmlTemplate.cssValueFilter L.decodeCSS w)),
       .lit " !important;\">\n    "] <:+: m ∧
      m.hasStatic "bg-" = false) ∧
    (∃ m : Markup, (cp.SetColor w).GetContentPieces (tmpl.goHost L) = some m ∧
      (cp.SetColor w).GetContent (tmpl.goHost L) = some (Markup.text m) ∧
      [.lit "%;background-color: ",
       .sub (htmlTemplate.attrEscaper (htmlTemplate.cssValueFilter L.decodeCSS w)),
       .lit " !important;\"></div>\n            "] <:+: m ∧
      m.hasStatic "progress-bar-" = false) := by
  have hcss : (tmpl.goHost L).escapeHTML .css v = v := htmlTemplate_css_plain L v hplain
  refine ⟨?_, ?_, ?_, ?_⟩
  · have h := infobox_render_hex (tmpl.goHost L) (ci.SetColor v)
      (infobox_Reachable_base (infobox.Reachable.setColor ci v hi))
      (by rw [infobox_SetColor_IsHexColor, hv, Bool.or_true])
    rw [infobox_SetColor_Color, hcss] at h
    exact h
  · have h := progress_group_render_hex (tmpl.goHost L) (cp.SetColor v)
      (progress_group_Reachable_base (progress_group.Reachable.setColor cp v hp))
      (by rw [progress_group_SetColor_IsHexColor, hv, Bool.or_true])
    rw [progress_group_SetColor_Color, hcss] at h
    exact h
  · obtain ⟨m, h1, h2, h3, _, h5⟩ := infobox_render_hex (tmpl.goHost L) (ci.SetColor w)
      (infobox_Reachable_base (infobox.Reachable.setColor ci w hi))
      (by rw [infobox_SetColor_IsHexColor, hw, Bool.or_true])
    rw [infobox_SetColor_Color] at h3
    exact ⟨m, h1, h2, h3, h5⟩
  · obtain ⟨m, h1, h2, h3, _, h5⟩ := progress_group_render_hex (tmpl.goHost L) (cp.SetColor w)
      (progress_group_Reachable_base (progress_group.Reachable.setColor cp w hp))
      (by rw [progress_group_SetColor_IsHexColor, hw, Bool.or_true])
    rw [progress_group_SetColor_Color] at h3
    exact ⟨m, h1, h2, h3, h5⟩

/-- C3 on a concrete input: an InfoBox with a text, a fresh ProgressGroup, the
hex color "#3c8dbc", and the color "#fff;x". -/
theorem C3_hex_color_inline_style_witness :
    (infobox.Reachable (infobox.New.SetText "Messages") ∧
      progress_group.Reachable progress_group.New ∧
      strings.Contains "#3c8dbc" "#" = true ∧ htmlTemplate.isPlainCSS "#3c8dbc" = true ∧
      strings.Contains "#fff;x" "#" = true) ∧
    (∃ m : Markup,
      ((infobox.New.SetText "Messages").SetColor "#3c8dbc").GetContentPieces
        (tmpl.goHost tmpl.Lib.plain) = some m ∧
      [.lit "\n        <span class=\"info-box-icon\" style=\"background-color: ",
       .sub "#3c8dbc", .lit " !important;\">\n    "] <:+: m ∧
      strings.Contains (Markup.text m)
        ("style=\"background-color: " ++ "#3c8dbc" ++ " !important;\"") = true ∧
      m.hasStatic "bg-" = false) ∧
    (∃ m : Markup,
      (progress_group.New.SetColor "#3c8dbc").GetContentPieces (tmpl.goHost tmpl.Lib.plain)
        = some m ∧
      [.lit "%;background-color: ", .sub "#3c8dbc",
       .lit " !important;\"></div>\n            "] <:+: m ∧
      m.hasStatic "progress-bar-" = false) := by
  have h := C3_hex_color_inline_style tmpl.Lib.plain (infobox.New.SetText "Messages")
    progress_group.New "#3c8dbc" "#fff;x" (.setText _ _ .new) .new (by decide) (by decide)
    (by decide)
  obtain ⟨⟨m1, a1, _, a3, a4, a5⟩, ⟨m2, b1, _, b3, _, b5⟩, _, _⟩ := h
  exact ⟨⟨.setText _ _ .new, .new, by decide, by decide, by decide⟩,
    ⟨m1, a1, a3, a4, a5⟩, ⟨m2, b1, b3, b5⟩⟩

set_option maxRecDepth 100000 in
/-- C3 does not hold for every value: the color "#fff;x" contains "#", but the markup of
`New().SetColor("#fff;x")` holds the failsafe `ZgotmplZ` in the inline style,
for InfoBox and ProgressGroup, and the color itself nowhere. -/
theorem C3_counterexample :
    strings.Contains "#fff;x" "#" = true ∧
    infobox.Reachable infobox.New ∧ progress_group.Reachable progress_group.New ∧
    (∀ L : tmpl.Lib, ∃ m : Markup,
      (infobox.New.SetColor "#fff;x").GetContentPieces (tmpl.goHost L) = some m ∧
      [.lit "\n        <span class=\"info-box-icon\" style=\"background-color: ",
       .sub "ZgotmplZ", .lit " !important;\">\n    "] <:+: m) ∧
    (∀ L : tmpl.Lib, ∃ m : Markup,
      (progress_group.New.SetColor "#fff;x").GetContentPieces (tmpl.goHost L) = some m ∧
      [.lit "%;background-color: ", .sub "ZgotmplZ",
       .lit " !important;\"></div>\n            "] <:+: m) ∧
    (∃ s : String,
      (infobox.New.SetColor "#fff;x").GetContent (tmpl.goHost tmpl.Lib.plain) = some s ∧
      s = "\n<div class=\"info-box\">\n    \n" ++
          "        <span class=\"info-box-icon\" style=\"background-color: ZgotmplZ !important;\">\n" ++
          "    \n    \n        <i class=\"fa \"></i>\n    \n    </span>\n" ++
          "    <div class=\"info-box-content\">\n" ++
          "        <span class=\"info-box-text\"></span>\n" ++
          "        <span class=\"info-box-number\"></span>\n        \n    </div>\n</div>\n" ∧
      strings.Contains s "background-color: #fff;x !important;" = false ∧
      strings.Contains s "#fff;x" = false) ∧
    (∃ s : String,
      (progress_group.New.SetColor "#fff;x").GetContent (tmpl.goHost tmpl.Lib.plain) = some s ∧
      s = "\n    <div class=\"progress-group\">\n" ++
          "        <span class=\"progress-text\"></span>\n" ++
          "        <span class=\"progress-number\"><b>0</b>/0</span>\n\n" ++
          "        <div class=\"progress sm\">\n            \n" ++
          "                <div class=\"progress-bar\" style=\"width: 0%;background-color: ZgotmplZ !important;\"></div>\n" ++
          "            \n        </div>\n    </div>\n" ∧
      strings.Contains s "background-color: #fff;x !important;" = false ∧
      strings.Contains s "#fff;x" = false) := by
  have hrej : ∀ L : tmpl.Lib,
      htmlTemplate.attrEscaper (htmlTemplate.cssValueFilter L.decodeCSS "#fff;x")
        = "ZgotmplZ" :=
    fun L => htmlTemplate_css_rejected L "#fff;x" (by decide) (by decide)
  refine ⟨by decide, .new, .new, fun L => ?_, fun L => ?_, ⟨_, rfl, rfl, by decide, by decide⟩,
    ⟨_, rfl, rfl, by decide, by decide⟩⟩
  · obtain ⟨m, h1, _, h3, _, _⟩ := infobox_render_hex (tmpl.goHost L)
      (infobox.New.SetColor "#fff;x") (infobox_SetColor_base _ _) (by decide)
    rw [infobox_SetColor_Color] at h3
    exact ⟨m, h1, by rw [← hrej L]; exact h3⟩
  · obtain ⟨m, h1, _, h3, _, _⟩ := progress_group_render_hex (tmpl.goHost L)
      (progress_group.New.SetColor "#fff;x")
      (progress_group_Reachable_base (.setColor _ _ .new)) (by decide)
    rw [progress_group_SetColor_Color] at h3
    exact ⟨m, h1, by rw [← hrej L]; exact h3⟩

/-! ## Icons of an InfoBox -/

/-- C6: on an InfoBox carrying the template of `New()` whose
`IsSvg` is false, `SetIcon(v)` with `v` containing "svg" renders `v` as it is,
on every host, with no static text of the `<i class="fa ...">` wrapper;
`SetIcon(w)` with `w` not containing "svg" renders `<i class="fa <w>"></i>`
with `w` itself when `w` has no character that the attribute escaper replaces
(quotation mark, apostrophe, plus sign, less-than, greater-than, NUL); and for
any `u` not containing "svg" the element holds `u` as `html/template` writes a
`template.HTML` value in an attribute (tags stripped, those characters as
entities). -/
theorem C6_infobox_icon (H : tmpl.Host) (L : tmpl.Lib) (c : infobox.InfoBox) (v w u : String)
    (hb : c.BaseComponent = infobox.New.BaseComponent) (hs : c.IsSvg = false)
    (hv : strings.Contains v "svg" = true) (hw : strings.Contains w "svg" = false)
    (hplain : htmlTemplate.isPlain true w = true) (hu : strings.Contains u "svg" = false) :
    (∃ m : Markup, (c.SetIcon v).GetContentPieces H = some m ∧
      (c.SetIcon v).GetContent H = some (Markup.text m) ∧
      [.lit "\n        ", .sub v, .lit "\n    "] <:+: m ∧
      strings.Contains (Markup.text m) v = true ∧
      m.hasStatic "<i class=\"fa " = false) ∧
    (∃ m : Markup, (c.SetIcon w).GetContentPieces (tmpl.goHost L) = some m ∧
      (c.SetIcon w).GetContent (tmpl.goHost L) = some (Markup.text m) ∧
      [.lit "\n        <i class=\"fa ", .sub w, .lit "\"></i>\n    "] <:+: m ∧
      strings.Contains (Markup.text m) ("<i class=\"fa " ++ w ++ "\"></i>") = true) ∧
    (∃ m : Markup, (c.SetIcon u).GetContentPieces (tmpl.goHost L) = some m ∧
      (c.SetIcon u).GetContent (tmpl.goHost L) = some (Markup.text m) ∧
      [.lit "\n        <i class=\"fa ",
       .sub (htmlTemplate.attrEscaperHTML L.stripTags u),
       .lit "\"></i>\n    "] <:+: m ∧
      strings.Contains (Markup.text m)
        ("<i class=\"fa " ++ htmlTemplate.attrEscaperHTML L.stripTags u ++ "\"></i>")
        = true) := by
  have hattr : (tmpl.goHost L).escapeHTML .attr w = w :=
    htmlTemplate_attrEscaperHTML_plain L w hplain
  refine ⟨?_, ?_, ?_⟩
  · have h := infobox_render_svg H (c.SetIcon v) ((infobox_SetIcon_base c v).trans hb)
      (by rw [infobox_SetIcon_IsSvg, hv, Bool.or_true])
    rw [infobox_SetIcon_Icon] at h
    exact h
  · have h := infobox_render_fa (tmpl.goHost L) (c.SetIcon w)
      ((infobox_SetIcon_base c w).trans hb) (by rw [infobox_SetIcon_IsSvg, hs, hw]; rfl)
    rw [infobox_SetIcon_Icon, hattr] at h
    exact h
  · have h := infobox_render_fa (tmpl.goHost L) (c.SetIcon u)
      ((infobox_SetIcon_base c u).trans hb) (by rw [infobox_SetIcon_IsSvg, hs, hu]; rfl)
    rw [infobox_SetIcon_Icon] at h
    exact h

/-- C6 on a concrete input: a fresh InfoBox, the icons `<svg></svg>` and
`fa-user`. -/
theorem C6_infobox_icon_witness :
    (infobox.New.BaseComponent = infobox.New.BaseComponent ∧ infobox.New.IsSvg = false ∧
      strings.Contains "<svg></svg>" "svg" = true ∧
      strings.Contains "fa-user" "svg" = false ∧
      htmlTemplate.isPlain true "fa-user" = true ∧
      strings.Contains "fa-user\x22 title=\x22x" "svg" = false) ∧
    (∃ m : Markup,
      (infobox.New.SetIcon "<svg></svg>").GetContentPieces (tmpl.goHost tmpl.Lib.plain)
        = some m ∧
      [.lit "\n        ", .sub "<svg></svg>", .lit "\n    "] <:+: m ∧
      strings.Contains (Markup.text m) "<svg></svg>" = true ∧
      m.hasStatic "<i class=\"fa " = false) ∧
    (∃ m : Markup,
      (infobox.New.SetIcon "fa-user").GetContentPieces (tmpl.goHost tmpl.Lib.plain) = some m ∧
      [.lit "\n        <i class=\"fa ", .sub "fa-user", .lit "\"></i>\n    "] <:+: m ∧
      strings.Contains (Markup.text m) ("<i class=\"fa " ++ "fa-user" ++ "\"></i>") = true) := by
  have h := C6_infobox_icon (tmpl.goHost tmpl.Lib.plain) tmpl.Lib.plain infobox.New
    "<svg></svg>" "fa-user" "fa-user\x22 title=\x22x" rfl rfl (by decide) (by decide)
    (by decide) (by decide)
  obtain ⟨⟨m1, a1, _, a3, a4, a5⟩, ⟨m2, b1, _, b3, b4⟩, _⟩ := h
  exact ⟨⟨rfl, rfl, by decide, by decide, by decide, by decide⟩, ⟨m1, a1, a3, a4, a5⟩,
    ⟨m2, b1, b3, b4⟩⟩

set_option maxRecDepth 100000 in
/-- C6 does not hold for every value: the icon `fa-user" title="x` does not contain "svg",
but the markup of `New().SetIcon(...)` holds it with the quotation marks as
`&#34;`, and not `<i class="fa <v>"></i>` with the icon itself. -/
theorem C6_counterexample :
    infobox.New.IsSvg = false ∧
    strings.Contains "fa-user\x22 title=\x22x" "svg" = false ∧
    (∀ L : tmpl.Lib, ∃ m : Markup,
      (infobox.New.SetIcon "fa-user\x22 title=\x22x").GetContentPieces (tmpl.goHost L)
        = some m ∧
      [.lit "\n        <i class=\"fa ", .sub "fa-user&#34; title=&#34;x",
       .lit "\"></i>\n    "] <:+: m) ∧
    (∃ s : String,
      (infobox.New.SetIcon "fa-user\x22 title=\x22x").GetContent (tmpl.goHost tmpl.Lib.plain)
        = some s ∧
      s = "\n<div class=\"info-box\">\n    \n        <span class=\"info-box-icon bg-\">\n" ++
          "    \n    \n        <i class=\"fa fa-user&#34; title=&#34;x\"></i>\n    \n" ++
          "    </span>\n    <div class=\"info-box-content\">\n" ++
          "        <span class=\"info-box-text\"></span>\n" ++
          "        <span class=\"info-box-number\"></span>\n        \n    </div>\n</div>\n" ∧
      strings.Contains s ("<i class=\"fa " ++ "fa-user\x22 title=\x22x" ++ "\"></i>") = false)
    := by
  have hesc : ∀ L : tmpl.Lib,
      htmlTemplate.attrEscaperHTML L.stripTags "fa-user\x22 title=\x22x"
        = "fa-user&#34; title=&#34;x" := by
    intro L
    rw [htmlTemplate.attrEscaperHTML, L.stripTags_text _ (by decide)]
    decide
  refine ⟨rfl, by decide, fun L => ?_, ⟨_, rfl, rfl, by decide⟩⟩
  obtain ⟨m, h1, _, h3, _⟩ := infobox_render_fa (tmpl.goHost L)
    (infobox.New.SetIcon "fa-user\x22 title=\x22x") (infobox_SetIcon_base _ _) (by decide)
  rw [infobox_SetIcon_Icon] at h3
  exact ⟨m, h1, by rw [← hesc L]; exact h3⟩

/-! ## Label span of a ProductList -/

/-- C7: the markup of a ProductList carrying the template of
`New()` is the opening of the list, the items of the records of `Data` in
order, and the closing; rendering succeeds for every `Data`. The item of a
record has a label span if and only if the entry `has_tabel` of the record is
exactly "true" (an absent entry reads as ""). The span is
`<span class="label label-<t> pull-right">` where `t` is the entry `labeltype`
as `html/template` escapes a string in an attribute (ampersand, quotation mark,
apostrophe, plus sign, less-than, greater-than and NUL replaced); `t` is the
entry itself when it has none of these characters. -/
theorem C7_productlist_label (L : tmpl.Lib) (p : productlist.ProductList)
    (hb : p.BaseComponent = productlist.New.BaseComponent) :
    p.GetContentPieces (tmpl.goHost L) = some
      ([.lit "\n<ul class=\"products-list product-list-in-box\">\n    "] ++
        (p.Data.map (productlist.item (tmpl.goHost L))).flatten ++ [.lit "\n</ul>\n"]) ∧
    p.GetContent (tmpl.goHost L) = some (Markup.text
      ([.lit "\n<ul class=\"products-list product-list-in-box\">\n    "] ++
        (p.Data.map (productlist.item (tmpl.goHost L))).flatten ++ [.lit "\n</ul>\n"])) ∧
    ∀ r : StringMap,
      ((productlist.item (tmpl.goHost L) r).hasStatic "<span class=\"label label-" = true
        ↔ tmpl.mapIndex r "has_tabel" = "true") ∧
      (tmpl.mapIndex r "has_tabel" = "true" →
        [.lit "\n                    <span class=\"label label-",
         .sub (htmlTemplate.attrEscaper (tmpl.mapIndex r "labeltype")),
         .lit " pull-right\">"] <:+: productlist.item (tmpl.goHost L) r ∧
        strings.Contains (Markup.text (productlist.item (tmpl.goHost L) r))
          ("<span class=\"label label-"
            ++ htmlTemplate.attrEscaper (tmpl.mapIndex r "labeltype") ++ " pull-right\">")
          = true) ∧
      (htmlTemplate.isPlain false (tmpl.mapIndex r "labeltype") = true →
        htmlTemplate.attrEscaper (tmpl.mapIndex r "labeltype") = tmpl.mapIndex r "labeltype")
    := by
  have hpieces := productlist_render_eq (tmpl.goHost L) p hb
  refine ⟨hpieces, ?_, fun r => ?_⟩
  · simp only [productlist.ProductList.GetContent, hpieces, Option.map_some']
  · exact ⟨(productlist_item_label (tmpl.goHost L) r).1,
      (productlist_item_label (tmpl.goHost L) r).2,
      fun h => htmlTemplate_htmlReplacer_plain false _ h⟩

set_option maxRecDepth 100000 in
/-- C7 on a concrete input: three records, with `has_tabel` equal to "true",
equal to "TRUE", and absent. -/
theorem C7_productlist_label_witness :
    ((productlist.New.SetData
        [[("title", "Laptop"), ("has_tabel", "true"), ("labeltype", "success"),
          ("label", "Hot")],
         [("title", "Mouse"), ("has_tabel", "TRUE")],
         [("title", "Cable")]]).BaseComponent = productlist.New.BaseComponent) ∧
    (productlist.New.SetData
        [[("title", "Laptop"), ("has_tabel", "true"), ("labeltype", "success"),
          ("label", "Hot")],
         [("title", "Mouse"), ("has_tabel", "TRUE")],
         [("title", "Cable")]]).GetContentPieces (tmpl.goHost tmpl.Lib.plain) = some
      ([.lit "\n<ul class=\"products-list product-list-in-box\">\n    "] ++
        ((productlist.New.SetData
          [[("title", "Laptop"), ("has_tabel", "true"), ("labeltype", "success"),
            ("label", "Hot")],
           [("title", "Mouse"), ("has_tabel", "TRUE")],
           [("title", "Cable")]]).Data.map
          (productlist.item (tmpl.goHost tmpl.Lib.plain))).flatten ++ [.lit "\n</ul>\n"]) ∧
    ((productlist.item (tmpl.goHost tmpl.Lib.plain)
        [("title", "Laptop"), ("has_tabel", "true"), ("labeltype", "success"),
          ("label", "Hot")]).hasStatic "<span class=\"label label-" = true
      ↔ tmpl.mapIndex [("title", "Laptop"), ("has_tabel", "true"), ("labeltype", "success"),
          ("label", "Hot")] "has_tabel" = "true") ∧
    ((productlist.item (tmpl.goHost tmpl.Lib.plain)
        [("title", "Mouse"), ("has_tabel", "TRUE")]).hasStatic "<span class=\"label label-"
        = true
      ↔ tmpl.mapIndex [("title", "Mouse"), ("has_tabel", "TRUE")] "has_tabel" = "true") := by
  have h := C7_productlist_label tmpl.Lib.plain
    (productlist.New.SetData
      [[("title", "Laptop"), ("has_tabel", "true"), ("labeltype", "success"),
        ("label", "Hot")],
       [("title", "Mouse"), ("has_tabel", "TRUE")],
       [("title", "Cable")]]) rfl
  exact ⟨rfl, h.1, (h.2.2 _).1, (h.2.2 _).1⟩

set_option maxRecDepth 100000 in
/-- C7 does not hold for every value: for the record with `has_tabel` "true" and `labeltype`
"a&b" the markup has the span `<span class="label label-a&amp;b pull-right">`,
and not `<span class="label label-a&b pull-right">`. -/
theorem C7_counterexample :
    tmpl.mapIndex [("has_tabel", "true"), ("labeltype", "a&b")] "has_tabel" = "true" ∧
    tmpl.mapIndex [("has_tabel", "true"), ("labeltype", "a&b")] "labeltype" = "a&b" ∧
    (∀ L : tmpl.Lib,
      [.lit "\n                    <span class=\"label label-", .sub "a&amp;b",
       .lit " pull-right\">"] <:+:
        productlist.item (tmpl.goHost L) [("has_tabel", "true"), ("labeltype", "a&b")]) ∧
    (∃ s : String,
      (productlist.New.SetData [[("has_tabel", "true"), ("labeltype", "a&b")]]).GetContent
        (tmpl.goHost tmpl.Lib.plain) = some s ∧
      s = "\n<ul class=\"products-list product-list-in-box\">\n    \n    <li class=\"item\">\n" ++
          "        <div class=\"product-img\">\n" ++
          "            <img src=\"\" alt=\"Product Image\">\n        </div>\n" ++
          "        <div class=\"product-info\">\n" ++
          "            <a href=\"javascript:void(0)\" class=\"product-title\">\n" ++
          "                \n" ++
          "                    <span class=\"label label-a&amp;b pull-right\"></span>\n" ++
          "                \n            </a>\n" ++
          "            <span class=\"product-description\">\n                \n" ++
          "            </span>\n        </div>\n    </li>\n    \n</ul>\n" ∧
      strings.Contains s "<span class=\"label label-a&amp;b pull-right\">" = true ∧
      strings.Contains s "<span class=\"label label-a&b pull-right\">" = false) := by
  refine ⟨by decide, by decide, fun L => ?_, ⟨_, rfl, rfl, by decide, by decide⟩⟩
  have h := (productlist_item_label (tmpl.goHost L)
    [("has_tabel", "true"), ("labeltype", "a&b")]).2 (by decide)
  have he : (tmpl.goHost L).escapeString .attr
      (tmpl.mapIndex [("has_tabel", "true"), ("labeltype", "a&b")] "labeltype") = "a&amp;b" := by
    show htmlTemplate.attrEscaper "a&b" = "a&amp;b"
    decide
  rw [he] at h
  exact h.1

/-! ## Items of a ChartLegend -/

/-- C13: the markup of a ChartLegend carrying the template of
`New()` with `Data = [r1, ..., rn]` is the opening of the list, then for each
record in order the item
`<li><i class="fa fa-circle-o text-<c>"></i><l></li>`, then the closing, where
`c` is the entry `color` as `html/template` escapes a string in an attribute
and `l` the entry `label` as it escapes a string in element content (ampersand,
quotation mark, apostrophe, plus sign, less-than, greater-than and NUL
replaced); a value with none of these characters is written as it is. The markup
has exactly `n` static `<li>`, and none for empty `Data`. -/
theorem C13_chart_legend_items (L : tmpl.Lib) (c : chart_legend.ChartLegend)
    (hb : c.BaseComponent = chart_legend.New.BaseComponent) :
    ∃ m : Markup, c.GetContentPieces (tmpl.goHost L) = some m ∧
      c.GetContent (tmpl.goHost L) = some (Markup.text m) ∧
      m = [.lit "\n<ul class=\"chart-legend clearfix\">\n    "] ++
          (c.Data.map fun r =>
            [.lit "\n        <li><i class=\"fa fa-circle-o text-",
             .sub (htmlTemplate.attrEscaper (tmpl.mapIndex r "color")),
             .lit "\"></i>",
             .sub (htmlTemplate.htmlEscaper (tmpl.mapIndex r "label")),
             .lit "</li>\n    "]).flatten ++
          [.lit "\n</ul>\n"] ∧
      Markup.countStatic m "<li>" = c.Data.length ∧
      (c.Data = [] →
        Markup.text m = "\n<ul class=\"chart-legend clearfix\">\n    \n</ul>\n" ∧
        strings.Contains (Markup.text m) "<li>" = false) ∧
      (∀ s : String, htmlTemplate.isPlain false s = true →
        htmlTemplate.attrEscaper s = s ∧ htmlTemplate.htmlEscaper s = s) := by
  have hpieces := chart_legend_render_eq (tmpl.goHost L) c hb
  refine ⟨_, hpieces, ?_, rfl, ?_, fun h => ?_, fun s h => ?_⟩
  · simp only [chart_legend.ChartLegend.GetContent, hpieces, Option.map_some']
  · rw [Markup_countStatic_append, Markup_countStatic_append,
      chart_legend_countStatic_items]
    have h1 : Markup.countStatic [.lit "\n<ul class=\"chart-legend clearfix\">\n    "] "<li>"
        = 0 := by decide
    have h2 : Markup.countStatic [.lit "\n</ul>\n"] "<li>" = 0 := by decide
    rw [h1, h2]
    omega
  · rw [h]
    exact ⟨rfl, rfl⟩
  · exact ⟨htmlTemplate_htmlReplacer_plain false s h, htmlTemplate_htmlReplacer_plain false s h⟩

set_option maxRecDepth 100000 in
/-- C13 on a concrete input: two records. -/
theorem C13_chart_legend_items_witness :
    ((chart_legend.New.SetData
        [[("color", "red"), ("label", "Chrome")],
         [("color", "green"), ("label", "IE")]]).BaseComponent
      = chart_legend.New.BaseComponent) ∧
    ∃ m : Markup,
      (chart_legend.New.SetData
        [[("color", "red"), ("label", "Chrome")],
         [("color", "green"), ("label", "IE")]]).GetContentPieces (tmpl.goHost tmpl.Lib.plain)
        = some m ∧
      Markup.text m =
        "\n<ul class=\"chart-legend clearfix\">\n    " ++
        "\n        <li><i class=\"fa fa-circle-o text-red\"></i>Chrome</li>\n    " ++
        "\n        <li><i class=\"fa fa-circle-o text-green\"></i>IE</li>\n    " ++
        "\n</ul>\n" ∧
      Markup.countStatic m "<li>" = 2 := by
  obtain ⟨m, h1, _, h3, h4, _⟩ := C13_chart_legend_items tmpl.Lib.plain
    (chart_legend.New.SetData
      [[("color", "red"), ("label", "Chrome")], [("color", "green"), ("label", "IE")]]) rfl
  refine ⟨rfl, m, h1, ?_, h4⟩
  rw [h3]
  decide

set_option maxRecDepth 100000 in
/-- C13 does not hold for every value: for the record with `color` "danger" and `label` "L&M"
the item is `<li><i class="fa fa-circle-o text-danger"></i>L&amp;M</li>`, and
not `<li><i class="fa fa-circle-o text-danger"></i>L&M</li>`. -/
theorem C13_counterexample :
    tmpl.mapIndex [("color", "danger"), ("label", "L&M")] "color" = "danger" ∧
    tmpl.mapIndex [("color", "danger"), ("label", "L&M")] "label" = "L&M" ∧
    (∀ L : tmpl.Lib, ∃ s : String,
      (chart_legend.New.SetData [[("color", "danger"), ("label", "L&M")]]).GetContent
        (tmpl.goHost L) = some s ∧
      s = "\n<ul class=\"chart-legend clearfix\">\n    \n" ++
          "        <li><i class=\"fa fa-circle-o text-danger\"></i>L&amp;M</li>\n    \n</ul>\n" ∧
      strings.Contains s "<li><i class=\"fa fa-circle-o text-danger\"></i>L&amp;M</li>" = true ∧
      strings.Contains s "<li><i class=\"fa fa-circle-o text-danger\"></i>L&M</li>" = false)
    := by
  refine ⟨by decide, by decide, fun L => ?_⟩
  have h : (chart_legend.New.SetData [[("color", "danger"), ("label", "L&M")]]).GetContent
      (tmpl.goHost L) = some
        ("\n<ul class=\"chart-legend clearfix\">\n    \n" ++
          "        <li><i class=\"fa fa-circle-o text-danger\"></i>L&amp;M</li>\n    \n</ul>\n")
      := rfl
  exact ⟨_, h, rfl, by decide, by decide⟩

/-! ## Rendering twice -/

/-- What a call of `GetContent` leaves in the variable: the fields as they were,
and the `BaseComponent` as the host method leaves it. -/
theorem GetContentCall_state (G : HostMethod) :
    (∀ c : infobox.InfoBox, (c.GetContentCall G).2
      = { c with BaseComponent := (G c.BaseComponent c.fields).2 }) ∧
    (∀ c : smallbox.SmallBox, (c.GetContentCall G).2
      = { c with BaseComponent := (G c.BaseComponent c.fields).2 }) ∧
    (∀ c : description.Description, (c.GetContentCall G).2
      = { c with BaseComponent := (G c.BaseComponent c.fields).2 }) ∧
    (∀ c : progress_group.ProgressGroup, (c.GetContentCall G).2
      = { c with BaseComponent := (G c.BaseComponent c.fields).2 }) ∧
    (∀ c : productlist.ProductList, (c.GetContentCall G).2
      = { c with BaseComponent := (G c.BaseComponent c.fields).2 }) ∧
    (∀ c : chart_legend.ChartLegend, (c.GetContentCall G).2
      = { c with BaseComponent := (G c.BaseComponent c.fields).2 }) :=
  ⟨fun _ => rfl, fun _ => rfl, fun _ => rfl, fun _ => rfl, fun _ => rfl, fun _ => rfl⟩

/-- C15: rendering is idempotent and leaves the component as it is. `GetContent`
has a value receiver and does nothing but call `GetContentWithData` of the
embedded `BaseComponent` on its copy, so what a call can change is what that
method changes. The method as the spec describes it (a pure transformation)
leaves the `BaseComponent` as it is; and under every method `G` that does so,
for every component of each of the six kinds a call of `GetContent` leaves the
variable with the value it had and a second call right after it returns the same
markup. With the method of the spec the markup is that of `GetContent`. -/
theorem C15_render_idempotent (H : tmpl.Host) :
    (∀ (b : Option BaseComponent) (d : tmpl.Fields),
      (BaseComponent.GetContentWithDataCall H b d).2 = b) ∧
    (∀ G : HostMethod, (∀ b d, (G b d).2 = b) →
      (∀ c : infobox.InfoBox,
        (c.GetContentCall G).2 = c ∧
        (c.GetContentCall G).2.GetContentCall G = c.GetContentCall G) ∧
      (∀ c : smallbox.SmallBox,
        (c.GetContentCall G).2 = c ∧
        (c.GetContentCall G).2.GetContentCall G = c.GetContentCall G) ∧
      (∀ c : description.Description,
        (c.GetContentCall G).2 = c ∧
        (c.GetContentCall G).2.GetContentCall G = c.GetContentCall G) ∧
      (∀ c : progress_group.ProgressGroup,
        (c.GetContentCall G).2 = c ∧
        (c.GetContentCall G).2.GetContentCall G = c.GetContentCall G) ∧
      (∀ c : productlist.ProductList,
        (c.GetContentCall G).2 = c ∧
        (c.GetContentCall G).2.GetContentCall G = c.GetContentCall G) ∧
      (∀ c : chart_legend.ChartLegend,
        (c.GetContentCall G).2 = c ∧
        (c.GetContentCall G).2.GetContentCall G = c.GetContentCall G)) ∧
    (∀ c : infobox.InfoBox,
      c.GetContentCall (BaseComponent.GetContentWithDataCall H) = (c.GetContent H, c)) ∧
    (∀ c : smallbox.SmallBox,
      c.GetContentCall (BaseComponent.GetContentWithDataCall H) = (c.GetContent H, c)) ∧
    (∀ c : description.Description,
      c.GetContentCall (BaseComponent.GetContentWithDataCall H) = (c.GetContent H, c)) ∧
    (∀ c : progress_group.ProgressGroup,
      c.GetContentCall (BaseComponent.GetContentWithDataCall H) = (c.GetContent H, c)) ∧
    (∀ c : productlist.ProductList,
      c.GetContentCall (BaseComponent.GetContentWithDataCall H) = (c.GetContent H, c)) ∧
    (∀ c : chart_legend.ChartLegend,
      c.GetContentCall (BaseComponent.GetContentWithDataCall H) = (c.GetContent H, c)) := by
  refine ⟨fun _ _ => rfl, fun G hG => ⟨?_, ?_, ?_, ?_, ?_, ?_⟩,
    fun _ => rfl, fun _ => rfl, fun _ => rfl, fun _ => rfl, fun _ => rfl, fun _ => rfl⟩
  · intro c
    have h : (c.GetContentCall G).2 = c := by
      simp only [infobox.InfoBox.GetContentCall, hG]
    exact ⟨h, by rw [h]⟩
  · intro c
    have h : (c.GetContentCall G).2 = c := by
      simp only [smallbox.SmallBox.GetContentCall, hG]
    exact ⟨h, by rw [h]⟩
  · intro c
    have h : (c.GetContentCall G).2 = c := by
      simp only [description.Description.GetContentCall, hG]
    exact ⟨h, by rw [h]⟩
  · intro c
    have h : (c.GetContentCall G).2 = c := by
      simp only [progress_group.ProgressGroup.GetContentCall, hG]
    exact ⟨h, by rw [h]⟩
  · intro c
    have h : (c.GetContentCall G).2 = c := by
      simp only [productlist.ProductList.GetContentCall, hG]
    exact ⟨h, by rw [h]⟩
  · intro c
    have h : (c.GetContentCall G).2 = c := by
      simp only [chart_legend.ChartLegend.GetContentCall, hG]
    exact ⟨h, by rw [h]⟩
